import Mathlib

/-!
Shallow embedding of the storage-and-transaction core of the bustub-style
repository: LRU replacer, buffer-pool instance, parallel buffer pool,
hash-table bucket page, extendible hash table, and lock manager.
Definitions are translated from the C++ sources; the hash-table directory
page (whose implementation file is not in the repository snapshot) is
modelled from the specification where noted.  Mutexes and condition
variables of the source are dropped: the embedding is sequential, and the
one genuinely concurrent event (being wounded while blocked on a condition
variable) is passed in as an explicit boolean.
-/

namespace Bustub

/-- Clear bit `k` (with `k < 8`) of a byte value, as the C++
`byte &= ~(1 << k)` does on an 8-bit lane. -/
def clearBit (b k : Nat) : Nat := b &&& (255 ^^^ (1 <<< k))

/-- Set bit `k` of a byte value, as `byte |= (1 << k)`. -/
def setBit (b k : Nat) : Nat := b ||| (1 <<< k)

/-! ## LRU replacer (src/buffer/lru_replacer.cpp)

The C++ keeps a `std::list` of frame ids plus a hash map from frame id to
its list iterator; the map's key set always equals the list's element set,
so the map is represented by list membership. -/

namespace LRUReplacer

structure State where
  list : List Nat
  maxPagesNum : Nat
  deriving Repr, DecidableEq

/-- `LRUReplacer::LRUReplacer(num_pages)`. -/
def init (numPages : Nat) : State := ⟨[], numPages⟩

/-- `LRUReplacer::Victim`: pop the front of the list, if any. -/
def victim (s : State) : Option Nat × State :=
  match s.list with
  | [] => (none, s)
  | f :: rest => (some f, { s with list := rest })

/-- `LRUReplacer::Pin`: if present, erase the frame from list and map. -/
def pin (s : State) (frameId : Nat) : State :=
  if frameId ∈ s.list then { s with list := s.list.erase frameId } else s

/-- `LRUReplacer::Unpin`: no-op when present; when the list is at
`max_pages_num_` capacity, first evict the front via `Victim(nullptr)`;
then append at the tail. -/
def unpin (s : State) (frameId : Nat) : State :=
  if frameId ∈ s.list then s
  else if s.list.length = s.maxPagesNum then
    let (v, s1) := victim s
    match v with
    | none => s1
    | some _ => { s1 with list := s1.list ++ [frameId] }
  else { s with list := s.list ++ [frameId] }

/-- `LRUReplacer::Size`. -/
def size (s : State) : Nat := s.list.length

inductive Op where
  | unpinOp (f : Nat)
  | pinOp (f : Nat)
  | victimOp
  deriving Repr, DecidableEq

def step (s : State) : Op → State
  | .unpinOp f => unpin s f
  | .pinOp f => pin s f
  | .victimOp => (victim s).2

def run (s : State) : List Op → State
  | [] => s
  | op :: ops => run (step s op) ops

/-- Run, collecting the frame id returned by each `Victim` call. -/
def runOut (s : State) : List Op → List (Option Nat)
  | [] => []
  | op :: ops =>
    match op with
    | .victimOp => (victim s).1 :: runOut (step s op) ops
    | _ => runOut (step s op) ops

/-- The replacer behaviour as the specification words it: `Unpin` of an
absent frame appends at the tail unconditionally (no capacity eviction),
`Pin` removes if present, `Victim` pops the head. -/
def stepSpec (s : State) : Op → State
  | .unpinOp f =>
    if f ∈ s.list then s else { s with list := s.list ++ [f] }
  | .pinOp f => pin s f
  | .victimOp => (victim s).2

def runSpec (s : State) : List Op → State
  | [] => s
  | op :: ops => runSpec (stepSpec s op) ops

/-- The frames an operation sequence ever passes to `Unpin`. -/
def unpinFrames (ops : List Op) : List Nat :=
  ops.filterMap (fun op => match op with
    | .unpinOp f => some f
    | _ => none)

/-- Well-formedness maintained by the replacer under correct buffer-pool
usage: the list never holds a frame twice, and every listed frame belongs
to the frame universe `F` (the pool has only `pool_size` frames). -/
def InvF (F : Finset Nat) (s : State) : Prop :=
  s.list.Nodup ∧ ∀ x ∈ s.list, x ∈ F

/-- The spec's scenario S1: size 4; Unpin 1,2,3,4; Pin 3; then four Victims. -/
def s1ops : List Op :=
  [Op.unpinOp 1, Op.unpinOp 2, Op.unpinOp 3, Op.unpinOp 4, Op.pinOp 3,
   Op.victimOp, Op.victimOp, Op.victimOp, Op.victimOp]

end LRUReplacer

/-! ## Buffer pool instance (src/buffer/buffer_pool_manager_instance.cpp) -/

namespace BufferPoolManagerInstance

/-- Metadata of one `Page` frame (the byte buffer itself carries no
information relevant to the buffer-pool claims). `pin_count_` is a C++
`int`, so it is an `Int` here. -/
structure PageFrame where
  pageId : Int
  pinCount : Int
  isDirty : Bool
  deriving Repr, DecidableEq

instance : Inhabited PageFrame := ⟨⟨-1, 0, false⟩⟩

structure State where
  poolSize : Nat
  numInstances : Nat
  instanceIndex : Nat
  nextPageId : Int
  freeList : List Nat
  replacer : LRUReplacer.State
  pageTable : List (Int × Nat)
  pages : List PageFrame
  diskWrites : List Int
  deriving Repr, DecidableEq

/-- The two-argument constructor: every frame free, replacer empty,
`next_page_id_` starting at the instance index. -/
def init (poolSize numInstances instanceIndex : Nat) : State :=
  { poolSize := poolSize
    numInstances := numInstances
    instanceIndex := instanceIndex
    nextPageId := Int.ofNat instanceIndex
    freeList := List.range poolSize
    replacer := LRUReplacer.init poolSize
    pageTable := []
    pages := List.replicate poolSize default
    diskWrites := [] }

instance : Inhabited State := ⟨init 0 1 0⟩

/-- `page_table_.find(page_id)` on the `std::unordered_map`. -/
def lookupPT (pt : List (Int × Nat)) (pid : Int) : Option Nat :=
  (pt.find? (fun e => e.1 == pid)).map (fun e => e.2)

def erasePT (pt : List (Int × Nat)) (pid : Int) : List (Int × Nat) :=
  pt.filter (fun e => e.1 != pid)

def insertPT (pt : List (Int × Nat)) (pid : Int) (fid : Nat) :
    List (Int × Nat) :=
  (pid, fid) :: erasePT pt pid

def getPage (s : State) (f : Nat) : PageFrame := s.pages.getD f default

def setPage (s : State) (f : Nat) (pg : PageFrame) : State :=
  { s with pages := s.pages.set f pg }

/-- `AllocatePage`: hand out `next_page_id_` and step it by
`num_instances_`. -/
def allocatePage (s : State) : Int × State :=
  (s.nextPageId, { s with nextPageId := s.nextPageId + s.numInstances })

/-- `UnpinPgImp(page_id, is_dirty)`: when resident, OR the dirty flag,
decrement the pin count unconditionally, and hand the frame to the
replacer exactly when the decremented count equals zero. -/
def unpinPgImp (s : State) (pid : Int) (isDirty : Bool) : Bool × State :=
  match lookupPT s.pageTable pid with
  | none => (false, s)
  | some f =>
    let pg := getPage s f
    let pg1 := { pg with isDirty := pg.isDirty || isDirty,
                         pinCount := pg.pinCount - 1 }
    let s1 := setPage s f pg1
    if pg1.pinCount = 0 then
      (true, { s1 with replacer := LRUReplacer.unpin s1.replacer f })
    else (true, s1)

/-- The success condition of `NewPgImp`: not every frame pinned. -/
def canAlloc (s : State) : Bool :=
  !(s.freeList.isEmpty && (LRUReplacer.size s.replacer == 0))

/-- `NewPgImp`: allocate a durable id, take a frame from the free list
first or else victimise (flushing a dirty victim and dropping its page
table entry), reset the frame with pin count one, and map the new id. -/
def newPgImp (s : State) : Option (Int × Nat) × State :=
  if !canAlloc s then (none, s)
  else
    let (pid, s1) := allocatePage s
    let (f, s2) :=
      match s1.freeList with
      | fr :: rest => (fr, { s1 with freeList := rest })
      | [] =>
        let (v, rep1) := LRUReplacer.victim s1.replacer
        let fr := v.getD 0
        let pg := getPage s1 fr
        (fr, { s1 with
                 replacer := rep1
                 diskWrites :=
                   if pg.isDirty then s1.diskWrites ++ [pg.pageId]
                   else s1.diskWrites
                 pageTable := erasePT s1.pageTable pg.pageId })
    let s3 := setPage s2 f { pageId := pid, pinCount := 1, isDirty := false }
    (some (pid, f), { s3 with pageTable := insertPT s3.pageTable pid f })

end BufferPoolManagerInstance

/-! ## Parallel buffer pool (src/buffer/parallel_buffer_pool_manager.cpp) -/

namespace ParallelBufferPoolManager

structure State where
  inss : List BufferPoolManagerInstance.State
  startIndex : Nat
  deriving Repr, DecidableEq

/-- The `for (tmp = 0; tmp < inss_.size(); ++tmp)` loop of `NewPgImp`,
with `remaining` tries left: try instance `(start + tmp) % n`, stop at the
first success. A failing `NewPgImp` leaves its instance unchanged. -/
def tryFrom (inss : List BufferPoolManagerInstance.State)
    (n start tmp : Nat) :
    Nat → Option (Int × Nat) × List BufferPoolManagerInstance.State
  | 0 => (none, inss)
  | r + 1 =>
    let idx := (start + tmp) % n
    let ins := inss.getD idx default
    let (res, ins1) := BufferPoolManagerInstance.newPgImp ins
    match res with
    | some pg => (some pg, inss.set idx ins1)
    | none => tryFrom inss n start (tmp + 1) r

/-- `ParallelBufferPoolManager::NewPgImp`: round-robin from
`start_index_`, then advance `start_index_` by one (mod N) whatever the
outcome; an empty instance list returns null without advancing. -/
def newPgImp (p : State) : Option (Int × Nat) × State :=
  if p.inss.isEmpty then (none, p)
  else
    let n := p.inss.length
    let (res, inss1) := tryFrom p.inss n p.startIndex 0 n
    (res, { inss := inss1, startIndex := (p.startIndex + 1) % n })

end ParallelBufferPoolManager

/-! ## Hash table bucket page (src/storage/page/hash_table_bucket_page.cpp)

Keys and values are both `Nat` (the `int, int` instantiation), the page's
slot count `sz` (`BUCKET_ARRAY_SIZE`) is a parameter, and the two bitmaps
are byte arrays of `(sz - 1) / 8 + 1` bytes, little-endian within each
byte, exactly as the `char occupied_[...]` / `char readable_[...]` layout.
`List.set` out of range is a no-op; the C++ equivalent is an out-of-bounds
write (undefined behaviour), so theorems about `deleteAt` keep its byte
index in range. -/

namespace HashTableBucketPage

structure Bucket where
  occupied : List Nat
  readable : List Nat
  array : List (Nat × Nat)
  deriving Repr, DecidableEq

def numBytes (sz : Nat) : Nat := (sz - 1) / 8 + 1

/-- A bucket page freshly produced by `NewPage`, which zeroes the frame. -/
def emptyBucket (sz : Nat) : Bucket :=
  ⟨List.replicate (numBytes sz) 0, List.replicate (numBytes sz) 0,
   List.replicate sz (0, 0)⟩

/-- `IsOccupied`: `occupied_[i / 8] & (1 << i % 8)`. -/
def isOccupied (b : Bucket) (i : Nat) : Bool :=
  Nat.testBit (b.occupied.getD (i / 8) 0) (i % 8)

/-- `SetOccupied`: `occupied_[i / 8] |= (1 << i % 8)`. -/
def setOccupied (b : Bucket) (i : Nat) : Bucket :=
  { b with occupied :=
      b.occupied.set (i / 8) (setBit (b.occupied.getD (i / 8) 0) (i % 8)) }

/-- `IsReadable`: `readable_[i / 8] & (1 << i % 8)`. -/
def isReadable (b : Bucket) (i : Nat) : Bool :=
  Nat.testBit (b.readable.getD (i / 8) 0) (i % 8)

/-- `SetReadable`: `readable_[i / 8] |= (1 << i % 8)`. -/
def setReadable (b : Bucket) (i : Nat) : Bucket :=
  { b with readable :=
      b.readable.set (i / 8) (setBit (b.readable.getD (i / 8) 0) (i % 8)) }

/-- `RemoveAt`: `readable_[i / 8] &= ~(1 << i % 8)` — readable bit only. -/
def removeAt (b : Bucket) (i : Nat) : Bucket :=
  { b with readable :=
      b.readable.set (i / 8) (clearBit (b.readable.getD (i / 8) 0) (i % 8)) }

def keyAt (b : Bucket) (i : Nat) : Nat := (b.array.getD i (0, 0)).1

def valueAt (b : Bucket) (i : Nat) : Nat := (b.array.getD i (0, 0)).2

/-- `SetPair`: write the pair and set both bitmap bits of slot `i`. -/
def setPair (b : Bucket) (key value i : Nat) : Bucket :=
  setReadable (setOccupied { b with array := b.array.set i (key, value) } i) i

/-- `DeleteAt`: `occupied_[bucket_idx] = 0; readable_[bucket_idx] = 0;` —
note the slot index is used directly as a byte index. -/
def deleteAt (b : Bucket) (i : Nat) : Bucket :=
  { b with occupied := b.occupied.set i 0, readable := b.readable.set i 0 }

/-- `GetValue`: all values in readable slots whose key matches, in slot
order, and whether at least one matched. -/
def getValue (sz : Nat) (b : Bucket) (key : Nat) : List Nat × Bool :=
  let vals := ((List.range sz).filter
    (fun i => isReadable b i && keyAt b i == key)).map (valueAt b)
  (vals, !vals.isEmpty)

/-- The first readable slot holding exactly `(key, value)`, if any. -/
def matchIdx (sz : Nat) (b : Bucket) (key value : Nat) : Option Nat :=
  (List.range sz).find?
    (fun i => isReadable b i && keyAt b i == key && valueAt b i == value)

/-- `Insert`: reject an exact duplicate, else occupy the first
non-readable slot; reject when none is free. -/
def bucketInsert (sz : Nat) (b : Bucket) (key value : Nat) : Bool × Bucket :=
  match matchIdx sz b key value with
  | some _ => (false, b)
  | none =>
    match (List.range sz).find? (fun i => !isReadable b i) with
    | some i =>
      (true, { (setReadable (setOccupied b i) i) with
                 array := b.array.set i (key, value) })
    | none => (false, b)

/-- `Remove`: clear the readable bit of the first exact match. -/
def bucketRemove (sz : Nat) (b : Bucket) (key value : Nat) : Bool × Bucket :=
  match matchIdx sz b key value with
  | some i => (true, removeAt b i)
  | none => (false, b)

/-- `NumReadable`. -/
def numReadable (sz : Nat) (b : Bucket) : Nat :=
  ((List.range sz).filter (fun i => isReadable b i)).length

/-- `IsEmpty`. -/
def isEmptyB (sz : Nat) (b : Bucket) : Bool := numReadable sz b == 0

end HashTableBucketPage

/-! ## Hash table directory page

The implementation file of `HashTableDirectoryPage` is not part of the
repository snapshot (only its callers are), so its operations are modelled
from the specification, section 4.4. -/

namespace HashTableDirectoryPage

/-- Modelled from the spec: the directory page layout — `global_depth`
plus dense `bucket_page_ids` / `local_depths` arrays of
`DIRECTORY_ARRAY_SIZE` entries, of which the first `2^global_depth` are
live (the missing `hash_table_directory_page.cpp`). -/
structure Dir where
  globalDepth : Nat
  bucketPageIds : List Nat
  localDepths : List Nat
  deriving Repr, DecidableEq

/-- Modelled from the spec: `Size()` — the live prefix `2^global_depth`. -/
def dirSize (d : Dir) : Nat := 2 ^ d.globalDepth

/-- Modelled from the spec: `GetGlobalDepthMask() = (1 << global_depth) - 1`. -/
def getGlobalDepthMask (d : Dir) : Nat := (1 <<< d.globalDepth) - 1

/-- Modelled from the spec: `GetBucketPageId(i)`. -/
def getBucketPageId (d : Dir) (i : Nat) : Nat := d.bucketPageIds.getD i 0

/-- Modelled from the spec: `SetBucketPageId(i, pid)`. -/
def setBucketPageId (d : Dir) (i pid : Nat) : Dir :=
  { d with bucketPageIds := d.bucketPageIds.set i pid }

/-- Modelled from the spec: `GetLocalDepth(i)`. -/
def getLocalDepth (d : Dir) (i : Nat) : Nat := d.localDepths.getD i 0

/-- Modelled from the spec: `IncrLocalDepth(i)`. -/
def incrLocalDepth (d : Dir) (i : Nat) : Dir :=
  { d with localDepths := d.localDepths.set i (getLocalDepth d i + 1) }

/-- Modelled from the spec: `DecrLocalDepth(i)`. -/
def decrLocalDepth (d : Dir) (i : Nat) : Dir :=
  { d with localDepths := d.localDepths.set i (getLocalDepth d i - 1) }

/-- Modelled from the spec: `IncrGlobalDepth` — double the live prefix;
each new entry `i` in `[2^old, 2^new)` aliases entry `i - 2^old`. -/
def incrGlobalDepth (d : Dir) : Dir :=
  let old := 2 ^ d.globalDepth
  { globalDepth := d.globalDepth + 1
    bucketPageIds := (List.range d.bucketPageIds.length).map
      (fun i => if old ≤ i ∧ i < 2 * old then d.bucketPageIds.getD (i - old) 0
                else d.bucketPageIds.getD i 0)
    localDepths := (List.range d.localDepths.length).map
      (fun i => if old ≤ i ∧ i < 2 * old then d.localDepths.getD (i - old) 0
                else d.localDepths.getD i 0) }

/-- Modelled from the spec: `DecrGlobalDepth` — halve the live prefix. -/
def decrGlobalDepth (d : Dir) : Dir :=
  { d with globalDepth := d.globalDepth - 1 }

/-- Modelled from the spec: `CanShrink` — every live index has
`local_depth < global_depth`. -/
def canShrink (d : Dir) : Bool :=
  (List.range (dirSize d)).all (fun i => getLocalDepth d i < d.globalDepth)

/-- Modelled from the spec: `GetSplitImageIndex(i) = i XOR
(1 << (local_depth[i] - 1))`. -/
def getSplitImageIndex (d : Dir) (i : Nat) : Nat :=
  i ^^^ (1 <<< (getLocalDepth d i - 1))

end HashTableDirectoryPage

/-! ## Extendible hash table (src/container/hash/extendible_hash_table.cpp)

The buffer pool is abstracted to a page store: `buckets` maps a page id to
the current content of that bucket page, `NewPage` hands out the next page
id with zeroed content, `DeletePage` drops the entry.  The directory page
lives in the `dir` field.  Latches and pin bookkeeping are dropped.
`Insert`/`SplitInsert` recurse through each other and `MergeMain` cascades,
so both take fuel; `none` means the fuel ran out. -/

namespace ExtendibleHashTable

open HashTableBucketPage HashTableDirectoryPage

/-- The template/compile-time context: `BUCKET_ARRAY_SIZE`,
`DIRECTORY_ARRAY_SIZE`, and the (external) 32-bit hash function. -/
structure Config where
  sz : Nat
  dirCap : Nat
  hash : Nat → Nat

structure TState where
  dir : Dir
  buckets : List (Nat × Bucket)
  nextPageId : Nat
  deriving Repr, DecidableEq

/-- `KeyToDirectoryIndex`: `Hash(key) & GetGlobalDepthMask()`. -/
def keyToDirectoryIndex (c : Config) (key : Nat) (d : Dir) : Nat :=
  c.hash key &&& getGlobalDepthMask d

/-- `KeyToPageId`. -/
def keyToPageId (c : Config) (key : Nat) (d : Dir) : Nat :=
  getBucketPageId d (keyToDirectoryIndex c key d)

/-- `FetchPage` of a bucket page: its stored content (a never-written
page reads back zeroed). -/
def fetchBucket (c : Config) (s : TState) (pid : Nat) : Bucket :=
  match s.buckets.find? (fun e => e.1 == pid) with
  | some e => e.2
  | none => emptyBucket c.sz

def storeBucket (s : TState) (pid : Nat) (b : Bucket) : TState :=
  { s with buckets := (pid, b) :: s.buckets.filter (fun e => e.1 != pid) }

/-- `NewPage`: fresh id, zeroed bucket content. -/
def newBucketPage (c : Config) (s : TState) : Nat × TState :=
  (s.nextPageId,
   { s with nextPageId := s.nextPageId + 1,
            buckets := (s.nextPageId, emptyBucket c.sz) :: s.buckets })

def deleteBucketPage (s : TState) (pid : Nat) : TState :=
  { s with buckets := s.buckets.filter (fun e => e.1 != pid) }

/-- The constructor: page 0 is the directory, page 1 the initial bucket,
`SetBucketPageId(0, 1)`. -/
def initTable (c : Config) : TState :=
  { dir := { globalDepth := 0
             bucketPageIds := (List.replicate c.dirCap 0).set 0 1
             localDepths := List.replicate c.dirCap 0 }
    buckets := [(1, emptyBucket c.sz)]
    nextPageId := 2 }

/-- `GetValue`: read the bucket the key's directory entry points at. -/
def getValueT (c : Config) (s : TState) (key : Nat) : List Nat × Bool :=
  HashTableBucketPage.getValue c.sz (fetchBucket c s (keyToPageId c key s.dir)) key

/-- The pointer-redirection loop of `SplitInsert`: walk every directory
slot `i ≡ common_bits (mod 2^ld)`; point the slots whose bit `ld` differs
from `kti`'s at the new bucket; increment every walked slot's local
depth. -/
def updatePointers (d : Dir) (kti newPid ld commonBits : Nat) : Dir :=
  ((List.range (dirSize d)).filter (fun i => i % (2 ^ ld) == commonBits)).foldl
    (fun dd i =>
      incrLocalDepth
        (if ((i >>> ld) &&& 1) != ((kti >>> ld) &&& 1)
         then setBucketPageId dd i newPid else dd) i) d

/-- The rehash loop of `SplitInsert`: for every slot of the old bucket
that is still occupied when the loop reaches it, if its key now maps to
the new page, copy the pair to the same slot of the new bucket
(`SetPair`) and `DeleteAt` the slot in the old one. -/
def splitRehash (c : Config) (d : Dir) (newPid : Nat) (bOld bNew : Bucket) :
    Bucket × Bucket :=
  (List.range c.sz).foldl
    (fun (p : Bucket × Bucket) i =>
      if isOccupied p.1 i then
        if keyToPageId c (keyAt p.1 i) d == newPid then
          (deleteAt p.1 i, setPair p.2 (keyAt p.1 i) (valueAt p.1 i) i)
        else p
      else p)
    (bOld, bNew)

mutual

/-- `Insert`: try the bucket insert; on failure, return false for a
duplicate, otherwise `SplitInsert`. -/
def insertT (c : Config) : Nat → TState → Nat → Nat → Option (Bool × TState)
  | 0, _, _, _ => none
  | fuel + 1, s, key, value =>
    let pid := keyToPageId c key s.dir
    let b := fetchBucket c s pid
    let (ans, b1) := bucketInsert c.sz b key value
    let s1 := storeBucket s pid b1
    if ans then some (true, s1)
    else
      let res := (HashTableBucketPage.getValue c.sz b1 key).1
      if value ∈ res then some (false, s1)
      else splitInsertT c fuel s1 key value

/-- `SplitInsert`: grow the directory if the splitting bucket's local
depth equals the global depth (failing when the directory is exhausted),
allocate the split-image bucket, redirect directory pointers, rehash, and
retry the insert. -/
def splitInsertT (c : Config) :
    Nat → TState → Nat → Nat → Option (Bool × TState)
  | 0, _, _, _ => none
  | fuel + 1, s, key, value =>
    let d := s.dir
    let kti := keyToDirectoryIndex c key d
    let bpgPid := getBucketPageId d kti
    if d.globalDepth = getLocalDepth d kti ∧ 2 ^ d.globalDepth = c.dirCap then
      some (false, s)
    else
      let d1 := if d.globalDepth = getLocalDepth d kti then incrGlobalDepth d
                else d
      let (newPid, s1) := newBucketPage c { s with dir := d1 }
      let ld := getLocalDepth d1 kti
      let commonBits := kti % (2 ^ ld)
      let d2 := updatePointers d1 kti newPid ld commonBits
      let bOld := fetchBucket c s1 bpgPid
      let bNew := fetchBucket c s1 newPid
      let (bOld1, bNew1) := splitRehash c d2 newPid bOld bNew
      let s2 := storeBucket (storeBucket { s1 with dir := d2 } bpgPid bOld1)
        newPid bNew1
      insertT c fuel s2 key value

end

mutual

/-- `MergeMain`: when the freshly-emptied bucket and its split image have
equal nonzero local depths and distinct pages, redirect the emptied
bucket's covering slots at the image, decrement the walked slots' local
depths, delete the page, and after a directory shrink re-examine the
remaining buckets for cascading merges. -/
def mergeMainT (c : Config) : Nat → TState → Nat → Option (Bool × TState)
  | 0, _, _ => none
  | fuel + 1, s, kti =>
    let d := s.dir
    let bpgPid := getBucketPageId d kti
    let img := getSplitImageIndex d kti
    if getLocalDepth d kti ≠ 0 ∧ getLocalDepth d kti = getLocalDepth d img ∧
        getBucketPageId d kti ≠ getBucketPageId d img then
      let ld1 := getLocalDepth d kti - 1
      let commonBits := img % (2 ^ ld1)
      let d2 := ((List.range (dirSize d)).filter
          (fun i => i % (2 ^ ld1) == commonBits)).foldl
        (fun dd i =>
          decrLocalDepth
            (if ((i >>> ld1) &&& 1) == ((kti >>> ld1) &&& 1)
             then setBucketPageId dd i (getBucketPageId dd img) else dd) i) d
      let s2 := deleteBucketPage { s with dir := d2 } bpgPid
      if canShrink d2 then
        let s3 := { s2 with dir := decrGlobalDepth d2 }
        match cascadeT c fuel s3 (dirSize s3.dir - 1) with
        | none => none
        | some s4 => some (true, s4)
      else some (true, s2)
    else some (false, s)

/-- The descending re-examination loop after `DecrGlobalDepth`
(`for (i = Size() - 1; i >= 0 && i < Size(); --i)`): the bound is
re-evaluated against the current directory size each iteration, and the
unsigned wrap of `--i` at zero ends the loop. -/
def cascadeT (c : Config) : Nat → TState → Nat → Option TState
  | 0, _, _ => none
  | fuel + 1, s, i =>
    if i < dirSize s.dir then
      let b := fetchBucket c s (getBucketPageId s.dir i)
      if isEmptyB c.sz b then
        match mergeMainT c fuel s i with
        | none => none
        | some (_, s2) =>
          if i = 0 then some s2 else cascadeT c fuel s2 (i - 1)
      else if i = 0 then some s else cascadeT c fuel s (i - 1)
    else some s

end

/-- `Merge`: recompute the key's directory index and run `MergeMain`. -/
def mergeT (c : Config) (fuel : Nat) (s : TState) (key : Nat) :
    Option TState :=
  match mergeMainT c fuel s (keyToDirectoryIndex c key s.dir) with
  | none => none
  | some (_, s2) => some s2

/-- `Remove`: bucket-level remove; if the bucket became empty, `Merge`. -/
def removeT (c : Config) (fuel : Nat) (s : TState) (key value : Nat) :
    Option (Bool × TState) :=
  let pid := keyToPageId c key s.dir
  let b := fetchBucket c s pid
  let (ans, b1) := bucketRemove c.sz b key value
  let s1 := storeBucket s pid b1
  if ans && isEmptyB c.sz b1 then
    match mergeT c fuel s1 key with
    | none => none
    | some s2 => some (ans, s2)
  else some (ans, s1)

end ExtendibleHashTable

/-! ## Lock manager (src/concurrency/lock_manager.cpp)

One RID's request queue is modelled explicitly; the transaction registry
(`TransactionManager::GetTransaction`) is a total map from txn id to
transaction record, the same object the caller's `txn` pointer aliases.
The blocking wait on the condition variable is replaced by a boolean
`wounded`: whether some other transaction's `KillYoungerRequests` set this
transaction to ABORTED while it was blocked.  A thrown
`TransactionAbortException` is an `exc` value. -/

namespace LockManager

inductive LockMode where
  | shared
  | exclusive
  deriving Repr, DecidableEq

inductive TransactionState where
  | growing
  | shrinking
  | committed
  | aborted
  deriving Repr, DecidableEq

inductive IsolationLevel where
  | readUncommitted
  | readCommitted
  | repeatableRead
  deriving Repr, DecidableEq

inductive AbortReason where
  | lockOnShrinking
  | upgradeConflict
  | locksharedOnReadUncommitted
  deriving Repr, DecidableEq

def invalidTxnId : Int := -1

structure LockRequest where
  txnId : Int
  lockMode : LockMode
  granted : Bool
  deriving Repr, DecidableEq

/-- `LockRequest(txn_id, mode)` default-initialises `granted_` to false. -/
def mkRequest (id : Int) (m : LockMode) : LockRequest := ⟨id, m, false⟩

structure LockRequestQueue where
  requestQueue : List LockRequest
  upgrading : Int
  deriving Repr, DecidableEq

structure Transaction where
  state : TransactionState
  isolationLevel : IsolationLevel
  sharedLockSet : List Nat
  exclusiveLockSet : List Nat
  deriving Repr, DecidableEq

abbrev Registry := Int → Transaction

def updateTxn (reg : Registry) (id : Int) (t : Transaction) : Registry :=
  fun j => if j = id then t else reg j

def setTxnState (reg : Registry) (id : Int) (st : TransactionState) :
    Registry :=
  updateTxn reg id { reg id with state := st }

/-- `std::set::emplace` on a lock set. -/
def emplaceSet (l : List Nat) (x : Nat) : List Nat :=
  if x ∈ l then l else l ++ [x]

/-- `std::set::erase` on a lock set. -/
def eraseSet (l : List Nat) (x : Nat) : List Nat :=
  l.filter (fun y => y != x)

/-- `OlderExists(lrq, id, lower_bound)`. -/
def olderExists (q : List LockRequest) (id : Int) (lowerBound : LockMode) :
    Bool :=
  q.any (fun r => r.txnId < id &&
    (lowerBound == LockMode.shared || r.lockMode == LockMode.exclusive))

/-- `KillYoungerRequests`: walk the queue in order; each request at or
above the conflict bound from a younger, not-yet-aborted transaction has
that transaction's state set to ABORTED and its granted flag cleared. -/
def killYoungerRequests :
    List LockRequest → Registry → Int → LockMode →
      List LockRequest × Registry
  | [], reg, _, _ => ([], reg)
  | r :: rest, reg, id, lb =>
    if (lb == LockMode.shared || r.lockMode == LockMode.exclusive) &&
        r.txnId > id &&
        !((reg r.txnId).state == TransactionState.aborted) then
      let reg1 := setTxnState reg r.txnId TransactionState.aborted
      let (rest1, reg2) := killYoungerRequests rest reg1 id lb
      ({ r with granted := false } :: rest1, reg2)
    else
      let (rest1, reg2) := killYoungerRequests rest reg id lb
      (r :: rest1, reg2)

/-- `GetRequestInQueue`: the first request of the transaction. -/
def findRequest (q : List LockRequest) (id : Int) : Option LockRequest :=
  q.find? (fun r => r.txnId == id)

/-- `lr_iter->granted_ = true` through the iterator `GetRequestInQueue`
returned. -/
def setGrantedFirst : List LockRequest → Int → List LockRequest
  | [], _ => []
  | r :: rest, id =>
    if r.txnId = id then { r with granted := true } :: rest
    else r :: setGrantedFirst rest id

/-- `lr_iter->lock_mode_ = EXCLUSIVE` through the iterator. -/
def setModeFirst : List LockRequest → Int → LockMode → List LockRequest
  | [], _, _ => []
  | r :: rest, id, m =>
    if r.txnId = id then { r with lockMode := m } :: rest
    else r :: setModeFirst rest id m

/-- `request_queue_.erase(lr_iter)`. -/
def eraseRequest : List LockRequest → Int → List LockRequest
  | [], _ => []
  | r :: rest, id => if r.txnId = id then rest else r :: eraseRequest rest id

structure LockOut where
  exc : Option AbortReason
  ret : Bool
  queue : LockRequestQueue
  txns : Registry

/-- `LockShared`: the `LockPreCheck(.., 0)` throws (SHRINKING, or shared
under READ_UNCOMMITTED); its boolean result is discarded by the caller,
so an already-ABORTED transaction still enqueues.  The request and the
RID enter the queue and the shared lock set before any waiting; younger
exclusive requests are wounded; after the wait the call returns false
without any cleanup when the transaction is ABORTED, else grants. -/
def lockShared (reg : Registry) (id : Int) (rid : Nat)
    (q : LockRequestQueue) (wounded : Bool) : LockOut :=
  let t := reg id
  if t.state == TransactionState.shrinking then
    ⟨some AbortReason.lockOnShrinking, false, q,
      setTxnState reg id TransactionState.aborted⟩
  else if t.isolationLevel == IsolationLevel.readUncommitted then
    ⟨some AbortReason.locksharedOnReadUncommitted, false, q,
      setTxnState reg id TransactionState.aborted⟩
  else
    let q1 := q.requestQueue ++ [mkRequest id LockMode.shared]
    let reg1 := updateTxn reg id
      { t with sharedLockSet := emplaceSet t.sharedLockSet rid }
    let (q2, reg2) := killYoungerRequests q1 reg1 id LockMode.exclusive
    let reg3 := if wounded then setTxnState reg2 id TransactionState.aborted
                else reg2
    if (reg3 id).state == TransactionState.aborted then
      ⟨none, false, { q with requestQueue := q2 }, reg3⟩
    else ⟨none, true, { q with requestQueue := setGrantedFirst q2 id }, reg3⟩

/-- `LockExclusive`: as `LockShared` but without the READ_UNCOMMITTED
throw, enqueueing an exclusive request into the exclusive lock set and
wounding every younger request. -/
def lockExclusive (reg : Registry) (id : Int) (rid : Nat)
    (q : LockRequestQueue) (wounded : Bool) : LockOut :=
  let t := reg id
  if t.state == TransactionState.shrinking then
    ⟨some AbortReason.lockOnShrinking, false, q,
      setTxnState reg id TransactionState.aborted⟩
  else
    let q1 := q.requestQueue ++ [mkRequest id LockMode.exclusive]
    let reg1 := updateTxn reg id
      { t with exclusiveLockSet := emplaceSet t.exclusiveLockSet rid }
    let (q2, reg2) := killYoungerRequests q1 reg1 id LockMode.shared
    let reg3 := if wounded then setTxnState reg2 id TransactionState.aborted
                else reg2
    if (reg3 id).state == TransactionState.aborted then
      ⟨none, false, { q with requestQueue := q2 }, reg3⟩
    else ⟨none, true, { q with requestQueue := setGrantedFirst q2 id }, reg3⟩

/-- `LockUpgrade`: after the (discarded) pre-check, a non-INVALID
`upgrading_` aborts with UPGRADE_CONFLICT; a missing, exclusive, or
ungranted own request returns false; otherwise the request is flipped to
exclusive, the lock sets are moved, younger requests are wounded, and the
call waits under the exclusive rule.  On a wounded wake-up it returns
false leaving `upgrading_` set; on success `upgrading_` is reset. -/
def lockUpgrade (reg : Registry) (id : Int) (rid : Nat)
    (q : LockRequestQueue) (wounded : Bool) : LockOut :=
  let t := reg id
  if t.state == TransactionState.shrinking then
    ⟨some AbortReason.lockOnShrinking, false, q,
      setTxnState reg id TransactionState.aborted⟩
  else if !(q.upgrading == invalidTxnId) then
    ⟨some AbortReason.upgradeConflict, false, q,
      setTxnState reg id TransactionState.aborted⟩
  else
    match findRequest q.requestQueue id with
    | none => ⟨none, false, q, reg⟩
    | some r =>
      if r.lockMode == LockMode.exclusive || !r.granted then
        ⟨none, false, q, reg⟩
      else
        let q1 := { q with
                    upgrading := id
                    requestQueue :=
                      setModeFirst q.requestQueue id LockMode.exclusive }
        let reg1 := updateTxn reg id
          { t with sharedLockSet := eraseSet t.sharedLockSet rid,
                   exclusiveLockSet := emplaceSet t.exclusiveLockSet rid }
        let (q2, reg2) :=
          killYoungerRequests q1.requestQueue reg1 id LockMode.shared
        let reg3 := if wounded
                    then setTxnState reg2 id TransactionState.aborted
                    else reg2
        if (reg3 id).state == TransactionState.aborted then
          ⟨none, false, { q1 with requestQueue := q2 }, reg3⟩
        else
          ⟨none, true,
            { q1 with
              requestQueue := q2
              upgrading := invalidTxnId }, reg3⟩

structure UnlockOut where
  ret : Bool
  queue : LockRequestQueue
  txns : Registry
  notified : Bool

/-- The caller-transaction mutation every `Unlock` performs before the
queue is searched: the GROWING→SHRINKING transition (REPEATABLE_READ) and
the erasure of the RID from both lock sets. -/
def unlockNewTxn (t : Transaction) (rid : Nat) : Transaction :=
  let t1 := if t.isolationLevel == IsolationLevel.repeatableRead &&
      t.state == TransactionState.growing then
      { t with state := TransactionState.shrinking }
    else t
  { t1 with exclusiveLockSet := eraseSet t1.exclusiveLockSet rid,
            sharedLockSet := eraseSet t1.sharedLockSet rid }

/-- `Unlock`: the transaction mutation happens unconditionally; an absent
request then returns false, a present one is erased from the queue and
the queue's condition variable notified. -/
def unlock (reg : Registry) (id : Int) (rid : Nat) (q : LockRequestQueue) :
    UnlockOut :=
  match findRequest q.requestQueue id with
  | none => ⟨false, q, updateTxn reg id (unlockNewTxn (reg id) rid), false⟩
  | some _ =>
    ⟨true, { q with requestQueue := eraseRequest q.requestQueue id },
      updateTxn reg id (unlockNewTxn (reg id) rid), true⟩

end LockManager

/-! ## Theorems -/

theorem testBit_clearBit (b k m : Nat) (hb : b < 256) :
    Nat.testBit (clearBit b k) m = (Nat.testBit b m && !(m == k)) := by
  unfold clearBit
  rcases Nat.lt_or_ge m 8 with hm | hm
  · rw [Nat.testBit_land, Nat.testBit_xor, Nat.shiftLeft_eq, one_mul,
      Nat.testBit_two_pow]
    have h255 : Nat.testBit 255 m = true := by
      have : (255 : Nat) = 2 ^ 8 - 1 := by norm_num
      rw [this, Nat.testBit_two_pow_sub_one]
      simpa using hm
    rw [h255]
    by_cases h : k = m
    · subst h; simp
    · simp [h, Ne.symm h, Bool.and_comm]
  · have hbm : Nat.testBit b m = false := by
      apply Nat.testBit_lt_two_pow
      calc b < 256 := hb
        _ = 2 ^ 8 := by norm_num
        _ ≤ 2 ^ m := Nat.pow_le_pow_right (by norm_num) hm
    have : Nat.testBit (b &&& (255 ^^^ (1 <<< k))) m = false := by
      rw [Nat.testBit_land, hbm]; simp
    rw [this, hbm]; simp

theorem testBit_setBit (b k m : Nat) :
    Nat.testBit (setBit b k) m = (Nat.testBit b m || m == k) := by
  unfold setBit
  rw [Nat.testBit_or, Nat.shiftLeft_eq, one_mul, Nat.testBit_two_pow]
  by_cases h : k = m
  · subst h; simp
  · simp [h, Ne.symm h]

theorem clearBit_lt (b k : Nat) (hb : b < 256) : clearBit b k < 256 :=
  lt_of_le_of_lt (Nat.and_le_left) hb

theorem setBit_lt (b k : Nat) (hb : b < 256) (hk : k < 8) : setBit b k < 256 := by
  unfold setBit
  have h1 : b < 2 ^ 8 := by norm_num at hb ⊢; exact hb
  have h2 : (1 <<< k) < 2 ^ 8 := by
    rw [Nat.shiftLeft_eq, one_mul]
    exact lt_of_lt_of_le (Nat.pow_lt_pow_right (by norm_num) hk) le_rfl
  have := Nat.or_lt_two_pow h1 h2
  norm_num at this ⊢
  exact this

namespace LRUReplacer

theorem mem_of_covering (l : List Nat) (F : Finset Nat) (f : Nat)
    (hnd : l.Nodup) (hsub : ∀ x ∈ l, x ∈ F) (hcard : F.card ≤ l.length)
    (hf : f ∈ F) : f ∈ l := by
  have hsub' : l.toFinset ⊆ F := fun x hx => hsub x (List.mem_toFinset.mp hx)
  have hle : F.card ≤ l.toFinset.card := by
    rw [List.toFinset_card_of_nodup hnd]; exact hcard
  have heq : l.toFinset = F := Finset.eq_of_subset_of_card_le hsub' hle
  exact List.mem_toFinset.mp (heq ▸ hf)

theorem step_eq_stepSpec (s : State) (op : Op) (F : Finset Nat)
    (hInv : InvF F s) (hcard : F.card ≤ s.maxPagesNum)
    (h : ∀ f, op = Op.unpinOp f → f ∈ F) :
    step s op = stepSpec s op := by
  cases op with
  | unpinOp f =>
    simp only [step, stepSpec, unpin]
    by_cases hmem : f ∈ s.list
    · simp [hmem]
    · simp only [hmem, if_false]
      by_cases hlen : s.list.length = s.maxPagesNum
      · exact absurd (mem_of_covering s.list F f hInv.1 hInv.2
          (hlen ▸ hcard) (h f rfl)) hmem
      · simp [hlen]
  | pinOp f => rfl
  | victimOp => rfl

theorem maxPagesNum_stepSpec (s : State) (op : Op) :
    (stepSpec s op).maxPagesNum = s.maxPagesNum := by
  cases op with
  | unpinOp f =>
    simp only [stepSpec]
    split <;> rfl
  | pinOp f =>
    simp only [stepSpec, pin]
    split <;> rfl
  | victimOp =>
    simp only [stepSpec, victim]
    cases s.list <;> rfl

theorem InvF_stepSpec (s : State) (op : Op) (F : Finset Nat)
    (hInv : InvF F s) (h : ∀ f, op = Op.unpinOp f → f ∈ F) :
    InvF F (stepSpec s op) := by
  obtain ⟨hnd, hlt⟩ := hInv
  cases op with
  | unpinOp f =>
    simp only [stepSpec]
    by_cases hmem : f ∈ s.list
    · simpa [hmem] using ⟨hnd, hlt⟩
    · simp only [hmem, if_false]
      constructor
      · exact List.Nodup.append hnd (List.nodup_singleton f)
          (by simpa using hmem)
      · intro x hx
        rcases List.mem_append.mp hx with hx | hx
        · exact hlt x hx
        · rw [List.mem_singleton] at hx
          rw [hx]
          exact h f rfl
  | pinOp f =>
    simp only [stepSpec, pin]
    by_cases hmem : f ∈ s.list
    · simp only [hmem, if_true]
      exact ⟨hnd.erase f, fun x hx => hlt x (List.mem_of_mem_erase hx)⟩
    · simpa [hmem] using ⟨hnd, hlt⟩
  | victimOp =>
    simp only [stepSpec, victim]
    cases hl : s.list with
    | nil => simpa [hl] using ⟨hnd, hlt⟩
    | cons a rest =>
      rw [hl] at hnd hlt
      exact ⟨(List.nodup_cons.mp hnd).2,
        fun x hx => hlt x (List.mem_cons_of_mem a hx)⟩

theorem run_eq_runSpec (ops : List Op) (s : State) (F : Finset Nat)
    (hInv : InvF F s) (hcard : F.card ≤ s.maxPagesNum)
    (h : ∀ f, Op.unpinOp f ∈ ops → f ∈ F) :
    run s ops = runSpec s ops := by
  induction ops generalizing s with
  | nil => rfl
  | cons op rest ih =>
    have hop : ∀ f, op = Op.unpinOp f → f ∈ F := by
      intro f hf; exact h f (hf ▸ List.mem_cons_self op rest)
    rw [run, runSpec, step_eq_stepSpec s op F hInv hcard hop]
    exact ih (stepSpec s op) (InvF_stepSpec s op F hInv hop)
      ((maxPagesNum_stepSpec s op).symm ▸ hcard)
      (fun f hf => h f (List.mem_cons_of_mem op hf))

theorem victim_none_iff (s : State) : (victim s).1 = none ↔ s.list = [] := by
  cases h : s.list with
  | nil => simp [victim, h]
  | cons a rest => simp [victim, h]

end LRUReplacer

namespace HashTableBucketPage

theorem isReadable_removeAt (b : Bucket) (j i : Nat)
    (hb : ∀ x ∈ b.readable, x < 256) (hby : j / 8 < b.readable.length) :
    isReadable (removeAt b j) i = (isReadable b i && !(i == j)) := by
  unfold isReadable removeAt
  simp only []
  by_cases hsame : i / 8 = j / 8
  · rw [hsame]
    have hget : ((b.readable.set (j / 8)
        (clearBit (b.readable.getD (j / 8) 0) (j % 8))).getD (j / 8) 0)
        = clearBit (b.readable.getD (j / 8) 0) (j % 8) := by
      rw [List.getD_eq_getElem?_getD, List.getElem?_set_eq_of_lt _ hby]
      rfl
    rw [hget]
    have hbyte : b.readable.getD (j / 8) 0 < 256 := by
      rw [List.getD_eq_getElem?_getD, List.getElem?_eq_getElem hby]
      exact hb _ (List.getElem_mem hby)
    rw [testBit_clearBit _ _ _ hbyte]
    congr 1
    have hmods : (i % 8 == j % 8) = (i == j) := by
      by_cases h : i = j
      · subst h; simp
      · have hne : ¬ i % 8 = j % 8 := by omega
        simp [h, hne]
    rw [hmods]
  · have hget : ((b.readable.set (j / 8)
        (clearBit (b.readable.getD (j / 8) 0) (j % 8))).getD (i / 8) 0)
        = b.readable.getD (i / 8) 0 := by
      rw [List.getD_eq_getElem?_getD,
        List.getElem?_set_ne (fun hh => hsame hh.symm),
        ← List.getD_eq_getElem?_getD]
    rw [hget]
    have hij : (i == j) = false := by
      simp only [beq_eq_false_iff_ne, ne_eq]
      intro h
      exact hsame (by rw [h])
    rw [hij]
    simp

end HashTableBucketPage

/-- Claim C9: `BucketPage::Remove` clears only the readable bit of the
first matching slot — the occupied bitmap is never changed, every other
readable bit survives — so a slot that once held a pair stays occupied
forever; and `SplitInsert`'s rehash, selecting by `IsOccupied`, also
visits such tombstone slots: a concrete occupied-but-unreadable slot whose
stale key maps to the new bucket is copied there and becomes readable. -/
theorem remove_keeps_occupied_rehash_visits_tombstones :
    (∀ (sz : Nat) (b : HashTableBucketPage.Bucket) (k v : Nat),
      ((HashTableBucketPage.bucketRemove sz b k v).2).occupied
        = b.occupied) ∧
    (∀ (sz : Nat) (b : HashTableBucketPage.Bucket) (k v j i : Nat),
      HashTableBucketPage.matchIdx sz b k v = some j →
      (∀ x ∈ b.readable, x < 256) →
      HashTableBucketPage.numBytes sz ≤ b.readable.length →
      HashTableBucketPage.isReadable
          ((HashTableBucketPage.bucketRemove sz b k v).2) i
        = (HashTableBucketPage.isReadable b i && !(i == j))) ∧
    (HashTableBucketPage.isOccupied ⟨[1], [0], [(1, 10), (0, 0)]⟩ 0 = true ∧
     HashTableBucketPage.isReadable ⟨[1], [0], [(1, 10), (0, 0)]⟩ 0 = false ∧
     HashTableBucketPage.isReadable
       (ExtendibleHashTable.splitRehash ⟨2, 4, fun k => k⟩
         ⟨1, [1, 2, 0, 0], [1, 1, 0, 0]⟩ 2 ⟨[1], [0], [(1, 10), (0, 0)]⟩
         (HashTableBucketPage.emptyBucket 2)).2 0 = true ∧
     HashTableBucketPage.keyAt
       (ExtendibleHashTable.splitRehash ⟨2, 4, fun k => k⟩
         ⟨1, [1, 2, 0, 0], [1, 1, 0, 0]⟩ 2 ⟨[1], [0], [(1, 10), (0, 0)]⟩
         (HashTableBucketPage.emptyBucket 2)).2 0 = 1 ∧
     HashTableBucketPage.valueAt
       (ExtendibleHashTable.splitRehash ⟨2, 4, fun k => k⟩
         ⟨1, [1, 2, 0, 0], [1, 1, 0, 0]⟩ 2 ⟨[1], [0], [(1, 10), (0, 0)]⟩
         (HashTableBucketPage.emptyBucket 2)).2 0 = 10) := by
  refine ⟨?_, ?_, by decide, by decide, by decide, by decide, by decide⟩
  · intro sz b k v
    unfold HashTableBucketPage.bucketRemove
    cases h : HashTableBucketPage.matchIdx sz b k v <;>
      simp [h, HashTableBucketPage.removeAt]
  · intro sz b k v j i hmatch hb hlen
    have hj : j < sz := by
      have := List.mem_of_find?_eq_some hmatch
      exact List.mem_range.mp this
    have hby : j / 8 < b.readable.length := by
      have : j / 8 < HashTableBucketPage.numBytes sz := by
        unfold HashTableBucketPage.numBytes
        omega
      omega
    have hrem : (HashTableBucketPage.bucketRemove sz b k v).2
        = HashTableBucketPage.removeAt b j := by
      unfold HashTableBucketPage.bucketRemove
      rw [hmatch]
    rw [hrem]
    exact HashTableBucketPage.isReadable_removeAt b j i hb hby

/-- Witness for C9: removing `(5,7)` from a two-slot bucket clears
exactly slot 0's readable bit. -/
theorem remove_keeps_occupied_witness :
    HashTableBucketPage.matchIdx 2 ⟨[3], [3], [(5, 7), (6, 8)]⟩ 5 7
      = some 0 ∧
    HashTableBucketPage.isReadable
        ((HashTableBucketPage.bucketRemove 2
          ⟨[3], [3], [(5, 7), (6, 8)]⟩ 5 7).2) 0
      = (HashTableBucketPage.isReadable ⟨[3], [3], [(5, 7), (6, 8)]⟩ 0 &&
          !((0 : Nat) == 0)) :=
  ⟨by decide,
    remove_keeps_occupied_rehash_visits_tombstones.2.1 2
      ⟨[3], [3], [(5, 7), (6, 8)]⟩ 5 7 0 0 (by decide) (by decide)
      (by decide)⟩

/-- Claim C3 (code-bug evidence): splitting a nine-slot bucket whose slot
1 holds a pair moving to the new bucket and whose slot 8 holds a pair that
stays: the pair of slot 1 is copied to the new bucket at slot 1, but
`DeleteAt(1)` zeroes bitmap BYTE 1 (slots 8..15) instead of slot 1's bits,
so after the rehash slot 1 is still occupied and readable in the old
bucket (the claim says cleared) while slot 8 — whose key still maps to the
old bucket — has lost its occupied and readable bits (the claim says
unchanged). -/
theorem split_rehash_clears_wrong_byte :
    (HashTableBucketPage.isReadable
        ⟨[2, 1], [2, 1], [(0, 0), (1, 10), (0, 0), (0, 0), (0, 0), (0, 0),
          (0, 0), (0, 0), (2, 20)]⟩ 1 = true ∧
     HashTableBucketPage.isReadable
        ⟨[2, 1], [2, 1], [(0, 0), (1, 10), (0, 0), (0, 0), (0, 0), (0, 0),
          (0, 0), (0, 0), (2, 20)]⟩ 8 = true ∧
     ExtendibleHashTable.keyToPageId ⟨9, 4, fun k => k⟩ 1
        ⟨1, [1, 2, 0, 0], [1, 1, 0, 0]⟩ = 2 ∧
     ExtendibleHashTable.keyToPageId ⟨9, 4, fun k => k⟩ 2
        ⟨1, [1, 2, 0, 0], [1, 1, 0, 0]⟩ = 1) ∧
    (HashTableBucketPage.isReadable
        (ExtendibleHashTable.splitRehash ⟨9, 4, fun k => k⟩
          ⟨1, [1, 2, 0, 0], [1, 1, 0, 0]⟩ 2
          ⟨[2, 1], [2, 1], [(0, 0), (1, 10), (0, 0), (0, 0), (0, 0), (0, 0),
            (0, 0), (0, 0), (2, 20)]⟩
          (HashTableBucketPage.emptyBucket 9)).1 1 = true ∧
     HashTableBucketPage.isOccupied
        (ExtendibleHashTable.splitRehash ⟨9, 4, fun k => k⟩
          ⟨1, [1, 2, 0, 0], [1, 1, 0, 0]⟩ 2
          ⟨[2, 1], [2, 1], [(0, 0), (1, 10), (0, 0), (0, 0), (0, 0), (0, 0),
            (0, 0), (0, 0), (2, 20)]⟩
          (HashTableBucketPage.emptyBucket 9)).1 1 = true ∧
     HashTableBucketPage.isReadable
        (ExtendibleHashTable.splitRehash ⟨9, 4, fun k => k⟩
          ⟨1, [1, 2, 0, 0], [1, 1, 0, 0]⟩ 2
          ⟨[2, 1], [2, 1], [(0, 0), (1, 10), (0, 0), (0, 0), (0, 0), (0, 0),
            (0, 0), (0, 0), (2, 20)]⟩
          (HashTableBucketPage.emptyBucket 9)).1 8 = false ∧
     HashTableBucketPage.isOccupied
        (ExtendibleHashTable.splitRehash ⟨9, 4, fun k => k⟩
          ⟨1, [1, 2, 0, 0], [1, 1, 0, 0]⟩ 2
          ⟨[2, 1], [2, 1], [(0, 0), (1, 10), (0, 0), (0, 0), (0, 0), (0, 0),
            (0, 0), (0, 0), (2, 20)]⟩
          (HashTableBucketPage.emptyBucket 9)).1 8 = false ∧
     HashTableBucketPage.isReadable
        (ExtendibleHashTable.splitRehash ⟨9, 4, fun k => k⟩
          ⟨1, [1, 2, 0, 0], [1, 1, 0, 0]⟩ 2
          ⟨[2, 1], [2, 1], [(0, 0), (1, 10), (0, 0), (0, 0), (0, 0), (0, 0),
            (0, 0), (0, 0), (2, 20)]⟩
          (HashTableBucketPage.emptyBucket 9)).2 1 = true ∧
     HashTableBucketPage.keyAt
        (ExtendibleHashTable.splitRehash ⟨9, 4, fun k => k⟩
          ⟨1, [1, 2, 0, 0], [1, 1, 0, 0]⟩ 2
          ⟨[2, 1], [2, 1], [(0, 0), (1, 10), (0, 0), (0, 0), (0, 0), (0, 0),
            (0, 0), (0, 0), (2, 20)]⟩
          (HashTableBucketPage.emptyBucket 9)).2 1 = 1) := by
  exact ⟨⟨by decide, by decide, by decide, by decide⟩,
    by decide, by decide, by decide, by decide, by decide, by decide⟩

/-- Claim C1 (code-bug evidence): on a table with bucket capacity 2 and
identity hash, `Insert(1,10)`, `Insert(2,20)`, `Insert(4,40)` all return
true — the third triggers `SplitInsert` — and yet `GetValue(2)` then
returns the empty multiset: the split's `DeleteAt(0)` zeroed the whole
first bitmap byte of the old bucket, erasing the never-removed pair
`(2,20)`. -/
theorem hash_roundtrip_loses_inserted_pair :
    ((ExtendibleHashTable.insertT ⟨2, 4, fun k => k⟩ 8
        (ExtendibleHashTable.initTable ⟨2, 4, fun k => k⟩) 1 10).bind
      (fun r1 => (ExtendibleHashTable.insertT ⟨2, 4, fun k => k⟩ 8 r1.2
          2 20).bind
        (fun r2 => (ExtendibleHashTable.insertT ⟨2, 4, fun k => k⟩ 8 r2.2
            4 40).map
          (fun r3 => (r1.1, r2.1, r3.1,
            ExtendibleHashTable.getValueT ⟨2, 4, fun k => k⟩ r3.2 2)))))
      = some (true, true, true, ([], false)) := by
  decide

/-- Claim C5: LRU replacer FIFO order — for every sequence of
Unpin/Pin/Victim calls that mentions at most `n` distinct frames in its
Unpins (a buffer pool of `n` frames can do no more), the replacer behaves
exactly as the claim describes: Unpin of an absent frame appends at the
tail, Unpin of a present frame does nothing, Pin removes the frame if
present, Victim removes and returns the head and fails exactly when the
set is empty; and the concrete S1 scenario (size 4; Unpin 1,2,3,4; Pin 3)
yields Victim results 1, 2, 4, none. -/
theorem lru_fifo_order (n : Nat) (ops : List LRUReplacer.Op)
    (h : (LRUReplacer.unpinFrames ops).toFinset.card ≤ n) :
    LRUReplacer.run (LRUReplacer.init n) ops
      = LRUReplacer.runSpec (LRUReplacer.init n) ops ∧
    (∀ s : LRUReplacer.State, (LRUReplacer.victim s).1 = none ↔ s.list = []) ∧
    LRUReplacer.runOut (LRUReplacer.init 4) LRUReplacer.s1ops
      = [some 1, some 2, some 4, none] := by
  refine ⟨?_, LRUReplacer.victim_none_iff, by decide⟩
  refine LRUReplacer.run_eq_runSpec ops (LRUReplacer.init n)
    (LRUReplacer.unpinFrames ops).toFinset
    ⟨List.nodup_nil, by simp [LRUReplacer.init]⟩ h ?_
  intro f hf
  rw [List.mem_toFinset, LRUReplacer.unpinFrames, List.mem_filterMap]
  exact ⟨LRUReplacer.Op.unpinOp f, hf, rfl⟩

/-- Witness for C5: the theorem applied at the S1 scenario itself. -/
theorem lru_fifo_order_witness :
    (LRUReplacer.unpinFrames LRUReplacer.s1ops).toFinset.card ≤ 4 ∧
    LRUReplacer.run (LRUReplacer.init 4) LRUReplacer.s1ops
      = LRUReplacer.runSpec (LRUReplacer.init 4) LRUReplacer.s1ops :=
  ⟨by decide, (lru_fifo_order 4 LRUReplacer.s1ops (by decide)).1⟩

namespace BufferPoolManagerInstance

theorem newPgImp_of_not_canAlloc (s : State) (h : canAlloc s = false) :
    newPgImp s = (none, s) := by
  unfold newPgImp
  rw [h]
  rfl

theorem newPgImp_isSome (s : State) (h : canAlloc s = true) :
    (newPgImp s).1.isSome := by
  unfold newPgImp allocatePage
  rw [h]
  cases hfl : s.freeList <;> simp [hfl]

end BufferPoolManagerInstance

namespace ParallelBufferPoolManager

theorem tryFrom_all_fail (inss : List BufferPoolManagerInstance.State)
    (n start : Nat) :
    ∀ (remaining tmp : Nat),
      (∀ t, t < remaining →
        BufferPoolManagerInstance.canAlloc
          (inss.getD ((start + (tmp + t)) % n) default) = false) →
      tryFrom inss n start tmp remaining = (none, inss) := by
  intro remaining
  induction remaining with
  | zero => intro tmp _; rfl
  | succ r ih =>
    intro tmp h
    have h0 := h 0 (Nat.succ_pos r)
    rw [Nat.add_zero] at h0
    rw [tryFrom,
      BufferPoolManagerInstance.newPgImp_of_not_canAlloc _ h0]
    exact ih (tmp + 1) (fun t ht => by
      have ht1 := h (t + 1) (Nat.succ_lt_succ ht)
      rwa [show tmp + (t + 1) = tmp + 1 + t by omega] at ht1)

theorem tryFrom_none_fail (inss : List BufferPoolManagerInstance.State)
    (n start : Nat) :
    ∀ (remaining tmp : Nat),
      (tryFrom inss n start tmp remaining).1 = none →
      ∀ t, t < remaining →
        BufferPoolManagerInstance.canAlloc
          (inss.getD ((start + (tmp + t)) % n) default) = false := by
  intro remaining
  induction remaining with
  | zero => intro tmp _ t ht; omega
  | succ r ih =>
    intro tmp hnone t ht
    by_cases hca : BufferPoolManagerInstance.canAlloc
        (inss.getD ((start + tmp) % n) default) = true
    · exfalso
      obtain ⟨pg, hpg⟩ := Option.isSome_iff_exists.mp
        (BufferPoolManagerInstance.newPgImp_isSome _ hca)
      rw [tryFrom] at hnone
      rw [show (BufferPoolManagerInstance.newPgImp
            (inss.getD ((start + tmp) % n) default))
          = (some pg, (BufferPoolManagerInstance.newPgImp
              (inss.getD ((start + tmp) % n) default)).2) from
          Prod.ext hpg rfl] at hnone
      simp at hnone
    · rw [Bool.not_eq_true] at hca
      rcases t with _ | t
      · rw [Nat.add_zero]
        exact hca
      · rw [tryFrom,
          BufferPoolManagerInstance.newPgImp_of_not_canAlloc _ hca] at hnone
        have := ih (tmp + 1) hnone t (by omega)
        rwa [show tmp + 1 + t = tmp + (t + 1) by omega] at this

theorem tryFrom_first_success (inss : List BufferPoolManagerInstance.State)
    (n start : Nat) :
    ∀ (t0 remaining tmp : Nat), t0 < remaining →
      (∀ t, t < t0 →
        BufferPoolManagerInstance.canAlloc
          (inss.getD ((start + (tmp + t)) % n) default) = false) →
      BufferPoolManagerInstance.canAlloc
        (inss.getD ((start + (tmp + t0)) % n) default) = true →
      tryFrom inss n start tmp remaining =
        ((BufferPoolManagerInstance.newPgImp
            (inss.getD ((start + (tmp + t0)) % n) default)).1,
         inss.set ((start + (tmp + t0)) % n)
           (BufferPoolManagerInstance.newPgImp
             (inss.getD ((start + (tmp + t0)) % n) default)).2) := by
  intro t0
  induction t0 with
  | zero =>
    intro remaining tmp hlt _ hca
    rcases remaining with _ | r
    · omega
    · rw [Nat.add_zero] at hca ⊢
      obtain ⟨pg, hpg⟩ := Option.isSome_iff_exists.mp
        (BufferPoolManagerInstance.newPgImp_isSome _ hca)
      rw [tryFrom]
      rw [show (BufferPoolManagerInstance.newPgImp
            (inss.getD ((start + tmp) % n) default))
          = (some pg, (BufferPoolManagerInstance.newPgImp
              (inss.getD ((start + tmp) % n) default)).2) from
          Prod.ext hpg rfl]
      simp
      rw [← List.getD_eq_getElem?_getD]
      exact hpg.symm
  | succ k ih =>
    intro remaining tmp hlt hfail hca
    rcases remaining with _ | r
    · omega
    · have h0 := hfail 0 (Nat.succ_pos k)
      rw [Nat.add_zero] at h0
      rw [tryFrom,
        BufferPoolManagerInstance.newPgImp_of_not_canAlloc _ h0]
      have := ih r (tmp + 1) (by omega)
        (fun t ht => by
          have := hfail (t + 1) (Nat.succ_lt_succ ht)
          rwa [show tmp + (t + 1) = tmp + 1 + t by omega] at this)
        (by rwa [show tmp + 1 + k = tmp + (k + 1) by omega])
      rwa [show tmp + 1 + k = tmp + (k + 1) by omega] at this

theorem mod_shift_surj (n start i : Nat) (hn : 0 < n) (hi : i < n) :
    ∃ t, t < n ∧ (start + t) % n = i := by
  refine ⟨(i + n - start % n) % n, Nat.mod_lt _ hn, ?_⟩
  have hs : start % n < n := Nat.mod_lt _ hn
  have key : start % n + (i + n - start % n) = i + n := by omega
  calc (start + (i + n - start % n) % n) % n
      = (start + (i + n - start % n)) % n := Nat.add_mod_mod _ _ _
    _ = (start % n + (i + n - start % n)) % n := (Nat.mod_add_mod _ _ _).symm
    _ = (i + n) % n := by rw [key]
    _ = i % n := by rw [Nat.add_mod_right]
    _ = i := Nat.mod_eq_of_lt hi

end ParallelBufferPoolManager

/-- Claim C8: the parallel pool's `NewPage` tries the instances in the
order `start_index, start_index + 1, ...` (mod N), returns the first
successful allocation, advances `start_index` by exactly one (mod N)
whether or not the call succeeded, and returns null exactly when every
instance refuses. -/
theorem parallel_newpage_round_robin (p : ParallelBufferPoolManager.State)
    (hne : p.inss ≠ []) :
    ((ParallelBufferPoolManager.newPgImp p).2.startIndex
        = (p.startIndex + 1) % p.inss.length) ∧
    ((ParallelBufferPoolManager.newPgImp p).1 = none ↔
      ∀ ins ∈ p.inss, BufferPoolManagerInstance.canAlloc ins = false) ∧
    (∀ t0, t0 < p.inss.length →
      (∀ t, t < t0 → BufferPoolManagerInstance.canAlloc
        (p.inss.getD ((p.startIndex + t) % p.inss.length) default) = false) →
      BufferPoolManagerInstance.canAlloc
        (p.inss.getD ((p.startIndex + t0) % p.inss.length) default) = true →
      (ParallelBufferPoolManager.newPgImp p).1
          = (BufferPoolManagerInstance.newPgImp
              (p.inss.getD ((p.startIndex + t0) % p.inss.length) default)).1 ∧
      (ParallelBufferPoolManager.newPgImp p).2.inss
          = p.inss.set ((p.startIndex + t0) % p.inss.length)
              (BufferPoolManagerInstance.newPgImp
                (p.inss.getD ((p.startIndex + t0) % p.inss.length)
                  default)).2 ∧
      ((ParallelBufferPoolManager.newPgImp p).1).isSome) := by
  have hn : 0 < p.inss.length := List.length_pos.mpr hne
  have hE : p.inss.isEmpty = false := by
    rw [List.isEmpty_eq_false]
    exact hne
  have hsplit : ParallelBufferPoolManager.newPgImp p =
      ((ParallelBufferPoolManager.tryFrom p.inss p.inss.length p.startIndex 0
          p.inss.length).1,
        ⟨(ParallelBufferPoolManager.tryFrom p.inss p.inss.length p.startIndex 0
          p.inss.length).2, (p.startIndex + 1) % p.inss.length⟩) := by
    unfold ParallelBufferPoolManager.newPgImp
    rw [hE]
    rfl
  refine ⟨by rw [hsplit], ⟨?_, ?_⟩, ?_⟩
  · intro hnone ins hins
    rw [hsplit] at hnone
    have hfail := ParallelBufferPoolManager.tryFrom_none_fail p.inss
      p.inss.length p.startIndex p.inss.length 0 hnone
    obtain ⟨i, hi, hgi⟩ := List.mem_iff_getElem.mp hins
    obtain ⟨t, ht, hmod⟩ := ParallelBufferPoolManager.mod_shift_surj
      p.inss.length p.startIndex i hn hi
    have := hfail t ht
    rw [Nat.zero_add, hmod, List.getD_eq_getElem p.inss default hi, hgi]
      at this
    exact this
  · intro hall
    rw [hsplit]
    refine ParallelBufferPoolManager.tryFrom_all_fail p.inss p.inss.length
      p.startIndex p.inss.length 0 (fun t ht => ?_) ▸ rfl
    have hidx : (p.startIndex + (0 + t)) % p.inss.length < p.inss.length :=
      Nat.mod_lt _ hn
    rw [List.getD_eq_getElem p.inss default hidx]
    exact hall _ (List.getElem_mem hidx)
  · intro t0 ht0 hfail hca
    have hrun := ParallelBufferPoolManager.tryFrom_first_success p.inss
      p.inss.length p.startIndex t0 p.inss.length 0 ht0
      (fun t ht => by rw [Nat.zero_add]; exact hfail t ht)
      (by rw [Nat.zero_add]; exact hca)
    rw [Nat.zero_add] at hrun
    rw [hsplit, hrun]
    refine ⟨rfl, rfl, ?_⟩
    exact BufferPoolManagerInstance.newPgImp_isSome _ hca

/-- Witness for C8: a two-instance pool whose first instance has every
frame pinned and whose second has a free frame. -/
theorem parallel_newpage_round_robin_witness :
    ((⟨[⟨1, 2, 0, 0, [], ⟨[], 1⟩, [], [⟨-1, 0, false⟩], []⟩,
        ⟨1, 2, 1, 1, [0], ⟨[], 1⟩, [], [⟨-1, 0, false⟩], []⟩], 0⟩ :
      ParallelBufferPoolManager.State).inss ≠ []) ∧
    (ParallelBufferPoolManager.newPgImp
      ⟨[⟨1, 2, 0, 0, [], ⟨[], 1⟩, [], [⟨-1, 0, false⟩], []⟩,
        ⟨1, 2, 1, 1, [0], ⟨[], 1⟩, [], [⟨-1, 0, false⟩], []⟩], 0⟩).2.startIndex
      = (0 + 1) % 2 :=
  ⟨by decide,
    (parallel_newpage_round_robin
      ⟨[⟨1, 2, 0, 0, [], ⟨[], 1⟩, [], [⟨-1, 0, false⟩], []⟩,
        ⟨1, 2, 1, 1, [0], ⟨[], 1⟩, [], [⟨-1, 0, false⟩], []⟩], 0⟩
      (by decide)).1⟩

/-- Claim C4 (code-bug evidence): on a pool whose resident page 5 sits in
frame 0 with `pin_count = 0`, a further `UnpinPage(5, false)` returns true
and leaves the dirty bit, page table and replacer unchanged, but
decrements `pin_count` to `-1` — the pin count underflows instead of the
call being a no-op. -/
theorem unpin_underflows_at_pin_zero :
    BufferPoolManagerInstance.unpinPgImp
      { poolSize := 1, numInstances := 1, instanceIndex := 0, nextPageId := 6,
        freeList := [], replacer := ⟨[0], 1⟩, pageTable := [(5, 0)],
        pages := [⟨5, 0, false⟩], diskWrites := [] } 5 false
    = (true,
      { poolSize := 1, numInstances := 1, instanceIndex := 0, nextPageId := 6,
        freeList := [], replacer := ⟨[0], 1⟩, pageTable := [(5, 0)],
        pages := [⟨5, -1, false⟩], diskWrites := [] }) := by
  decide

namespace LockManager

theorem setTxnState_self (reg : Registry) (id : Int) (st : TransactionState) :
    (setTxnState reg id st) id = { reg id with state := st } := by
  simp [setTxnState, updateTxn]

theorem setTxnState_other (reg : Registry) (id : Int) (st : TransactionState)
    (j : Int) (h : j ≠ id) : (setTxnState reg id st) j = reg j := by
  simp [setTxnState, updateTxn, h]

theorem killYounger_cons (a : LockRequest) (rest : List LockRequest)
    (reg : Registry) (id : Int) (lb : LockMode) :
    killYoungerRequests (a :: rest) reg id lb =
      if ((lb == LockMode.shared || a.lockMode == LockMode.exclusive) &&
          decide (a.txnId > id) &&
          !((reg a.txnId).state == TransactionState.aborted)) = true then
        ({ a with granted := false } ::
          (killYoungerRequests rest
            (setTxnState reg a.txnId TransactionState.aborted) id lb).1,
         (killYoungerRequests rest
           (setTxnState reg a.txnId TransactionState.aborted) id lb).2)
      else
        (a :: (killYoungerRequests rest reg id lb).1,
         (killYoungerRequests rest reg id lb).2) := by
  rw [killYoungerRequests]

theorem killYounger_state_mono (q : List LockRequest) :
    ∀ (reg : Registry) (id : Int) (lb : LockMode) (j : Int),
      (reg j).state = TransactionState.aborted →
      ((killYoungerRequests q reg id lb).2 j).state
        = TransactionState.aborted := by
  induction q with
  | nil => intro reg id lb j h; exact h
  | cons a rest ih =>
    intro reg id lb j h
    rw [killYounger_cons]
    by_cases hcond : ((lb == LockMode.shared ||
        a.lockMode == LockMode.exclusive) && decide (a.txnId > id) &&
        !((reg a.txnId).state == TransactionState.aborted)) = true
    · rw [if_pos hcond]
      have h1 : ((setTxnState reg a.txnId TransactionState.aborted) j).state
          = TransactionState.aborted := by
        by_cases hj : j = a.txnId
        · subst hj; rw [setTxnState_self]
        · rw [setTxnState_other _ _ _ _ hj]; exact h
      exact ih (setTxnState reg a.txnId TransactionState.aborted) id lb j h1
    · rw [if_neg hcond]
      exact ih reg id lb j h

theorem killYounger_reg_not_younger (q : List LockRequest) :
    ∀ (reg : Registry) (id : Int) (lb : LockMode) (j : Int), ¬ id < j →
      (killYoungerRequests q reg id lb).2 j = reg j := by
  induction q with
  | nil => intro reg id lb j _; rfl
  | cons a rest ih =>
    intro reg id lb j hj
    rw [killYounger_cons]
    by_cases hcond : ((lb == LockMode.shared ||
        a.lockMode == LockMode.exclusive) && decide (a.txnId > id) &&
        !((reg a.txnId).state == TransactionState.aborted)) = true
    · rw [if_pos hcond]
      have hya : id < a.txnId := by
        have hx := hcond
        simp only [Bool.and_eq_true] at hx
        exact of_decide_eq_true hx.1.2
      have hne : j ≠ a.txnId := fun hh => hj (hh ▸ hya)
      rw [ih (setTxnState reg a.txnId TransactionState.aborted) id lb j hj,
        setTxnState_other _ _ _ _ hne]
    · rw [if_neg hcond]
      exact ih reg id lb j hj

theorem killYounger_mem_not_younger (q : List LockRequest) :
    ∀ (reg : Registry) (id : Int) (lb : LockMode) (r : LockRequest),
      r ∈ q → ¬ id < r.txnId → r ∈ (killYoungerRequests q reg id lb).1 := by
  induction q with
  | nil => intro reg id lb r hr _; exact absurd hr (List.not_mem_nil r)
  | cons a rest ih =>
    intro reg id lb r hr hy
    rw [killYounger_cons]
    rcases List.mem_cons.mp hr with rfl | hr
    · have hcond : ((lb == LockMode.shared ||
          r.lockMode == LockMode.exclusive) && decide (r.txnId > id) &&
          !((reg r.txnId).state == TransactionState.aborted)) = false := by
        have hdec : decide (r.txnId > id) = false := by simp [hy]
        rw [hdec]
        simp
      rw [if_neg (by rw [hcond]; exact Bool.false_ne_true)]
      exact List.mem_cons_self _ _
    · by_cases hcond : ((lb == LockMode.shared ||
          a.lockMode == LockMode.exclusive) && decide (a.txnId > id) &&
          !((reg a.txnId).state == TransactionState.aborted)) = true
      · rw [if_pos hcond]
        exact List.mem_cons_of_mem _
          (ih (setTxnState reg a.txnId TransactionState.aborted) id lb r hr hy)
      · rw [if_neg hcond]
        exact List.mem_cons_of_mem _ (ih reg id lb r hr hy)

theorem killYounger_cons_snd (a : LockRequest) (l : List LockRequest)
    (reg : Registry) (id : Int) (lb : LockMode) :
    (killYoungerRequests (a :: l) reg id lb).2 =
      (killYoungerRequests l
        (if ((lb == LockMode.shared || a.lockMode == LockMode.exclusive) &&
            decide (a.txnId > id) &&
            !((reg a.txnId).state == TransactionState.aborted)) = true
         then setTxnState reg a.txnId TransactionState.aborted else reg)
        id lb).2 := by
  rw [killYounger_cons]
  by_cases hcond : ((lb == LockMode.shared ||
      a.lockMode == LockMode.exclusive) && decide (a.txnId > id) &&
      !((reg a.txnId).state == TransactionState.aborted)) = true
  · rw [if_pos hcond, if_pos hcond]
  · rw [if_neg hcond, if_neg hcond]

theorem killYounger_length (q : List LockRequest) :
    ∀ (reg : Registry) (id : Int) (lb : LockMode),
      (killYoungerRequests q reg id lb).1.length = q.length := by
  induction q with
  | nil => intro reg id lb; rfl
  | cons a rest ih =>
    intro reg id lb
    rw [killYounger_cons]
    by_cases hcond : ((lb == LockMode.shared ||
        a.lockMode == LockMode.exclusive) && decide (a.txnId > id) &&
        !((reg a.txnId).state == TransactionState.aborted)) = true
    · rw [if_pos hcond]
      simp [ih]
    · rw [if_neg hcond]
      simp [ih]

theorem killYounger_aborts (q : List LockRequest) :
    ∀ (reg : Registry) (id : Int) (lb : LockMode),
      ∀ r' ∈ (killYoungerRequests q reg id lb).1,
        id < r'.txnId →
        (lb = LockMode.shared ∨ r'.lockMode = LockMode.exclusive) →
        ((killYoungerRequests q reg id lb).2 r'.txnId).state
            = TransactionState.aborted := by
  induction q with
  | nil =>
    intro reg id lb r' hr'
    exact absurd hr' (List.not_mem_nil r')
  | cons a rest ih =>
    intro reg id lb r' hr' hy hconf
    rw [killYounger_cons] at hr' ⊢
    by_cases hcond : ((lb == LockMode.shared ||
        a.lockMode == LockMode.exclusive) && decide (a.txnId > id) &&
        !((reg a.txnId).state == TransactionState.aborted)) = true
    · rw [if_pos hcond] at hr' ⊢
      rcases List.mem_cons.mp hr' with rfl | hr'
      · have hst : ((setTxnState reg a.txnId TransactionState.aborted)
            a.txnId).state = TransactionState.aborted := by
          rw [setTxnState_self]
        exact killYounger_state_mono rest
          (setTxnState reg a.txnId TransactionState.aborted) id lb
          a.txnId hst
      · exact ih (setTxnState reg a.txnId TransactionState.aborted) id lb
          r' hr' hy hconf
    · rw [if_neg hcond] at hr' ⊢
      rcases List.mem_cons.mp hr' with rfl | hr'
      · have hA : (lb == LockMode.shared ||
            r'.lockMode == LockMode.exclusive) = true := by
          rcases hconf with h | h
          · rw [h]; simp
          · rw [h]; simp
        have hB : decide (r'.txnId > id) = true := decide_eq_true hy
        have hC : (reg r'.txnId).state = TransactionState.aborted := by
          have hcf : ((lb == LockMode.shared ||
              r'.lockMode == LockMode.exclusive) &&
              decide (r'.txnId > id) &&
              !((reg r'.txnId).state == TransactionState.aborted))
              = false := by
            revert hcond
            cases hc : ((lb == LockMode.shared ||
                r'.lockMode == LockMode.exclusive) &&
                decide (r'.txnId > id) &&
                !((reg r'.txnId).state == TransactionState.aborted)) <;>
              simp
          rw [hA, hB] at hcf
          simpa using hcf
        exact killYounger_state_mono rest reg id lb r'.txnId hC
      · exact ih reg id lb r' hr' hy hconf

theorem killYounger_getD (q : List LockRequest) :
    ∀ (reg : Registry) (id : Int) (lb : LockMode) (i : Nat), i < q.length →
      (killYoungerRequests q reg id lb).1.getD i
          (mkRequest 0 LockMode.shared) =
        (if ((lb == LockMode.shared ||
              (q.getD i (mkRequest 0 LockMode.shared)).lockMode ==
                LockMode.exclusive) &&
            decide ((q.getD i (mkRequest 0 LockMode.shared)).txnId > id) &&
            !(((killYoungerRequests (q.take i) reg id lb).2
                (q.getD i (mkRequest 0 LockMode.shared)).txnId).state ==
              TransactionState.aborted)) = true
         then { q.getD i (mkRequest 0 LockMode.shared) with granted := false }
         else q.getD i (mkRequest 0 LockMode.shared)) := by
  induction q with
  | nil =>
    intro reg id lb i hi
    exact absurd hi (by simp)
  | cons a rest ih =>
    intro reg id lb i hi
    rw [killYounger_cons]
    cases i with
    | zero =>
      have h0 : (killYoungerRequests ((a :: rest).take 0) reg id lb).2
          = reg := rfl
      rw [h0, List.getD_cons_zero]
      by_cases hcond : ((lb == LockMode.shared ||
          a.lockMode == LockMode.exclusive) && decide (a.txnId > id) &&
          !((reg a.txnId).state == TransactionState.aborted)) = true
      · rw [if_pos hcond, if_pos hcond, List.getD_cons_zero]
      · rw [if_neg hcond, if_neg hcond, List.getD_cons_zero]
    | succ j =>
      have hj : j < rest.length := by
        simpa using Nat.lt_of_succ_lt_succ hi
      rw [List.take_succ_cons, killYounger_cons_snd, List.getD_cons_succ]
      by_cases hcond : ((lb == LockMode.shared ||
          a.lockMode == LockMode.exclusive) && decide (a.txnId > id) &&
          !((reg a.txnId).state == TransactionState.aborted)) = true
      · rw [if_pos hcond, if_pos hcond, List.getD_cons_succ]
        exact ih (setTxnState reg a.txnId TransactionState.aborted)
          id lb j hj
      · rw [if_neg hcond, if_neg hcond, List.getD_cons_succ]
        exact ih reg id lb j hj

theorem updateTxn_self (reg : Registry) (id : Int) (t : Transaction) :
    (updateTxn reg id t) id = t := by
  simp [updateTxn]

theorem mem_emplaceSet (l : List Nat) (x : Nat) : x ∈ emplaceSet l x := by
  unfold emplaceSet
  by_cases h : x ∈ l
  · rwa [if_pos h]
  · rw [if_neg h]
    exact List.mem_append_right l (List.mem_singleton_self x)

theorem lockShared_wounded_eq (reg : Registry) (id : Int) (rid : Nat)
    (q : LockRequestQueue)
    (h1 : (reg id).state ≠ TransactionState.shrinking)
    (h2 : (reg id).isolationLevel ≠ IsolationLevel.readUncommitted) :
    lockShared reg id rid q true =
      ⟨none, false,
        { q with requestQueue :=
            (killYoungerRequests
              (q.requestQueue ++ [mkRequest id LockMode.shared])
              (updateTxn reg id
                { reg id with
                    sharedLockSet := emplaceSet (reg id).sharedLockSet rid })
              id LockMode.exclusive).1 },
        setTxnState
          (killYoungerRequests
            (q.requestQueue ++ [mkRequest id LockMode.shared])
            (updateTxn reg id
              { reg id with
                  sharedLockSet := emplaceSet (reg id).sharedLockSet rid })
            id LockMode.exclusive).2 id TransactionState.aborted⟩ := by
  have e1 : ((reg id).state == TransactionState.shrinking) = false :=
    beq_eq_false_iff_ne.mpr h1
  have e2 : ((reg id).isolationLevel ==
      IsolationLevel.readUncommitted) = false :=
    beq_eq_false_iff_ne.mpr h2
  unfold lockShared
  rcases hk : killYoungerRequests
      (q.requestQueue ++ [mkRequest id LockMode.shared])
      (updateTxn reg id
        { reg id with
            sharedLockSet := emplaceSet (reg id).sharedLockSet rid })
      id LockMode.exclusive with ⟨q2, reg2⟩
  simp only [e1, e2, Bool.false_eq_true, if_false, hk, if_true]
  simp [setTxnState_self]

theorem lockExclusive_wounded_eq (reg : Registry) (id : Int) (rid : Nat)
    (q : LockRequestQueue)
    (h1 : (reg id).state ≠ TransactionState.shrinking) :
    lockExclusive reg id rid q true =
      ⟨none, false,
        { q with requestQueue :=
            (killYoungerRequests
              (q.requestQueue ++ [mkRequest id LockMode.exclusive])
              (updateTxn reg id
                { reg id with
                    exclusiveLockSet :=
                      emplaceSet (reg id).exclusiveLockSet rid })
              id LockMode.shared).1 },
        setTxnState
          (killYoungerRequests
            (q.requestQueue ++ [mkRequest id LockMode.exclusive])
            (updateTxn reg id
              { reg id with
                  exclusiveLockSet :=
                    emplaceSet (reg id).exclusiveLockSet rid })
            id LockMode.shared).2 id TransactionState.aborted⟩ := by
  have e1 : ((reg id).state == TransactionState.shrinking) = false :=
    beq_eq_false_iff_ne.mpr h1
  unfold lockExclusive
  rcases hk : killYoungerRequests
      (q.requestQueue ++ [mkRequest id LockMode.exclusive])
      (updateTxn reg id
        { reg id with
            exclusiveLockSet := emplaceSet (reg id).exclusiveLockSet rid })
      id LockMode.shared with ⟨q2, reg2⟩
  simp only [e1, Bool.false_eq_true, if_false, hk, if_true]
  simp [setTxnState_self]

end LockManager

/-- Counterexample for C2: over a reachable queue state — transaction 3
holds a granted exclusive request here but was already wounded (ABORTED)
through another RID's queue — an arriving older exclusive request's
`KillYoungerRequests` skips the entry (its `GetState() != ABORTED` guard
fails) and leaves `granted = true`, so the claim's "every younger
conflicting request has its granted flag cleared" is false of the code. -/
theorem kill_skips_preaborted_granted :
    (1 : Int) < 3 ∧
    (LockManager.killYoungerRequests
        [⟨3, LockManager.LockMode.exclusive, true⟩]
        (fun _ => ⟨LockManager.TransactionState.aborted,
          LockManager.IsolationLevel.repeatableRead, [], []⟩)
        1 LockManager.LockMode.shared).1
      = [⟨3, LockManager.LockMode.exclusive, true⟩] := by
  exact ⟨by decide, by decide⟩

/-- Claim C2 (amended): wound-wait — the wait guard `OlderExists` of a
shared request holds exactly when an older exclusive request is in the
queue and that of an exclusive request exactly when any older request is
(so a request is granted exactly when no such older request remains); on
arrival `KillYoungerRequests` keeps the queue's length and order, leaves
every younger conflicting request's transaction ABORTED, and clears the
granted flag of exactly those younger conflicting requests whose
transaction was not already ABORTED when the scan reached them — a
younger conflicting request already ABORTED (for instance wounded earlier
through another RID) is skipped with its granted flag unchanged; and a
transaction wounded while waiting has its lock call return false. -/
theorem wound_wait_rule :
    (∀ (q : List LockManager.LockRequest) (id : Int),
      LockManager.olderExists q id LockManager.LockMode.exclusive = true ↔
        ∃ r ∈ q, r.txnId < id ∧
          r.lockMode = LockManager.LockMode.exclusive) ∧
    (∀ (q : List LockManager.LockRequest) (id : Int),
      LockManager.olderExists q id LockManager.LockMode.shared = true ↔
        ∃ r ∈ q, r.txnId < id) ∧
    (∀ (q : List LockManager.LockRequest) (reg : LockManager.Registry)
        (id : Int) (lb : LockManager.LockMode),
      (LockManager.killYoungerRequests q reg id lb).1.length = q.length) ∧
    (∀ (q : List LockManager.LockRequest) (reg : LockManager.Registry)
        (id : Int) (lb : LockManager.LockMode),
      ∀ r' ∈ (LockManager.killYoungerRequests q reg id lb).1,
        id < r'.txnId →
        (lb = LockManager.LockMode.shared ∨
          r'.lockMode = LockManager.LockMode.exclusive) →
        ((LockManager.killYoungerRequests q reg id lb).2 r'.txnId).state
            = LockManager.TransactionState.aborted) ∧
    (∀ (q : List LockManager.LockRequest) (reg : LockManager.Registry)
        (id : Int) (lb : LockManager.LockMode) (i : Nat), i < q.length →
      (LockManager.killYoungerRequests q reg id lb).1.getD i
          (LockManager.mkRequest 0 LockManager.LockMode.shared) =
        (if ((lb == LockManager.LockMode.shared ||
              (q.getD i (LockManager.mkRequest 0
                LockManager.LockMode.shared)).lockMode ==
                LockManager.LockMode.exclusive) &&
            decide ((q.getD i (LockManager.mkRequest 0
              LockManager.LockMode.shared)).txnId > id) &&
            !(((LockManager.killYoungerRequests (q.take i) reg id lb).2
                (q.getD i (LockManager.mkRequest 0
                  LockManager.LockMode.shared)).txnId).state ==
              LockManager.TransactionState.aborted)) = true
         then { q.getD i (LockManager.mkRequest 0
                  LockManager.LockMode.shared) with granted := false }
         else q.getD i (LockManager.mkRequest 0
                LockManager.LockMode.shared))) ∧
    (∀ (reg : LockManager.Registry) (id : Int) (rid : Nat)
        (q : LockManager.LockRequestQueue),
      (reg id).state ≠ LockManager.TransactionState.shrinking →
      (reg id).isolationLevel ≠ LockManager.IsolationLevel.readUncommitted →
      (LockManager.lockShared reg id rid q true).ret = false ∧
      (LockManager.lockShared reg id rid q true).exc = none) ∧
    (∀ (reg : LockManager.Registry) (id : Int) (rid : Nat)
        (q : LockManager.LockRequestQueue),
      (reg id).state ≠ LockManager.TransactionState.shrinking →
      (LockManager.lockExclusive reg id rid q true).ret = false ∧
      (LockManager.lockExclusive reg id rid q true).exc = none) := by
  refine ⟨?_, ?_, LockManager.killYounger_length,
    LockManager.killYounger_aborts, LockManager.killYounger_getD, ?_, ?_⟩
  · intro q id
    simp [LockManager.olderExists, List.any_eq_true, Bool.and_eq_true,
      decide_eq_true_eq, Bool.or_eq_true, beq_iff_eq]
  · intro q id
    simp [LockManager.olderExists, List.any_eq_true, Bool.and_eq_true,
      decide_eq_true_eq]
  · intro reg id rid q h1 h2
    rw [LockManager.lockShared_wounded_eq reg id rid q h1 h2]
    exact ⟨rfl, rfl⟩
  · intro reg id rid q h1
    rw [LockManager.lockExclusive_wounded_eq reg id rid q h1]
    exact ⟨rfl, rfl⟩

/-- Witness for C2 (amended): an exclusive arrival of transaction 1 over
a queue holding the younger granted exclusive request of the live
transaction 3 leaves transaction 3 ABORTED. -/
theorem wound_wait_rule_witness :
    (⟨3, LockManager.LockMode.exclusive, false⟩ :
        LockManager.LockRequest) ∈
      (LockManager.killYoungerRequests
        [⟨3, LockManager.LockMode.exclusive, true⟩]
        (fun _ => ⟨LockManager.TransactionState.growing,
          LockManager.IsolationLevel.repeatableRead, [], []⟩)
        1 LockManager.LockMode.shared).1 ∧
    ((LockManager.killYoungerRequests
        [⟨3, LockManager.LockMode.exclusive, true⟩]
        (fun _ => ⟨LockManager.TransactionState.growing,
          LockManager.IsolationLevel.repeatableRead, [], []⟩)
        1 LockManager.LockMode.shared).2 3).state
      = LockManager.TransactionState.aborted :=
  ⟨by decide,
    wound_wait_rule.2.2.2.1 [⟨3, LockManager.LockMode.exclusive, true⟩]
      (fun _ => ⟨LockManager.TransactionState.growing,
        LockManager.IsolationLevel.repeatableRead, [], []⟩)
      1 LockManager.LockMode.shared
      ⟨3, LockManager.LockMode.exclusive, false⟩ (by decide) (by decide)
      (Or.inl rfl)⟩

/-- Claim C10: LockShared/LockExclusive enqueue the request and insert the
RID into the transaction's shared/exclusive lock set before any grant, and
a call that returns false because the transaction was wounded while
waiting removes neither: the queue still holds the transaction's request
and the lock set still holds the never-granted RID. -/
theorem failed_lock_keeps_entries (reg : LockManager.Registry) (id : Int)
    (rid : Nat) (q : LockManager.LockRequestQueue)
    (h1 : (reg id).state ≠ LockManager.TransactionState.shrinking)
    (h2 : (reg id).isolationLevel ≠
      LockManager.IsolationLevel.readUncommitted) :
    ((LockManager.lockShared reg id rid q true).ret = false ∧
     (LockManager.lockShared reg id rid q true).exc = none ∧
     (∃ r ∈ (LockManager.lockShared reg id rid q true).queue.requestQueue,
        r.txnId = id ∧ r.lockMode = LockManager.LockMode.shared) ∧
     rid ∈ ((LockManager.lockShared reg id rid q true).txns
        id).sharedLockSet) ∧
    ((LockManager.lockExclusive reg id rid q true).ret = false ∧
     (LockManager.lockExclusive reg id rid q true).exc = none ∧
     (∃ r ∈ (LockManager.lockExclusive reg id rid q
        true).queue.requestQueue,
        r.txnId = id ∧ r.lockMode = LockManager.LockMode.exclusive) ∧
     rid ∈ ((LockManager.lockExclusive reg id rid q true).txns
        id).exclusiveLockSet) := by
  constructor
  · rw [LockManager.lockShared_wounded_eq reg id rid q h1 h2]
    refine ⟨rfl, rfl, ?_, ?_⟩
    · refine ⟨LockManager.mkRequest id LockManager.LockMode.shared, ?_,
        rfl, rfl⟩
      exact LockManager.killYounger_mem_not_younger _ _ _ _ _
        (List.mem_append_right _ (List.mem_singleton_self _))
        (lt_irrefl id)
    · show rid ∈ ((LockManager.setTxnState
          (LockManager.killYoungerRequests
            (q.requestQueue ++ [LockManager.mkRequest id
              LockManager.LockMode.shared])
            (LockManager.updateTxn reg id
              { reg id with sharedLockSet :=
                  LockManager.emplaceSet (reg id).sharedLockSet rid })
            id LockManager.LockMode.exclusive).2 id
          LockManager.TransactionState.aborted) id).sharedLockSet
      rw [LockManager.setTxnState_self,
        LockManager.killYounger_reg_not_younger _ _ _ _ _ (lt_irrefl id),
        LockManager.updateTxn_self]
      exact LockManager.mem_emplaceSet _ _
  · rw [LockManager.lockExclusive_wounded_eq reg id rid q h1]
    refine ⟨rfl, rfl, ?_, ?_⟩
    · refine ⟨LockManager.mkRequest id LockManager.LockMode.exclusive, ?_,
        rfl, rfl⟩
      exact LockManager.killYounger_mem_not_younger _ _ _ _ _
        (List.mem_append_right _ (List.mem_singleton_self _))
        (lt_irrefl id)
    · show rid ∈ ((LockManager.setTxnState
          (LockManager.killYoungerRequests
            (q.requestQueue ++ [LockManager.mkRequest id
              LockManager.LockMode.exclusive])
            (LockManager.updateTxn reg id
              { reg id with exclusiveLockSet :=
                  LockManager.emplaceSet (reg id).exclusiveLockSet rid })
            id LockManager.LockMode.shared).2 id
          LockManager.TransactionState.aborted) id).exclusiveLockSet
      rw [LockManager.setTxnState_self,
        LockManager.killYounger_reg_not_younger _ _ _ _ _ (lt_irrefl id),
        LockManager.updateTxn_self]
      exact LockManager.mem_emplaceSet _ _

/-- Witness for C10: transaction 2, READ_COMMITTED and GROWING, wounded
while waiting for a shared lock on RID 5 over an empty queue: the call
returns false and RID 5 is still in its shared lock set. -/
theorem failed_lock_keeps_entries_witness :
    (LockManager.lockShared
      (fun _ => ⟨LockManager.TransactionState.growing,
        LockManager.IsolationLevel.readCommitted, [], []⟩) 2 5 ⟨[], -1⟩
      true).ret = false ∧
    5 ∈ ((LockManager.lockShared
      (fun _ => ⟨LockManager.TransactionState.growing,
        LockManager.IsolationLevel.readCommitted, [], []⟩) 2 5 ⟨[], -1⟩
      true).txns 2).sharedLockSet :=
  ⟨(failed_lock_keeps_entries
      (fun _ => ⟨LockManager.TransactionState.growing,
        LockManager.IsolationLevel.readCommitted, [], []⟩) 2 5 ⟨[], -1⟩
      (by decide) (by decide)).1.1,
   (failed_lock_keeps_entries
      (fun _ => ⟨LockManager.TransactionState.growing,
        LockManager.IsolationLevel.readCommitted, [], []⟩) 2 5 ⟨[], -1⟩
      (by decide) (by decide)).1.2.2.2⟩

/-- Counterexample for C6: with another transaction's upgrade in progress
(`upgrading = 7`) and the caller's request missing from the queue,
`LockUpgrade` does not return false — it aborts the caller and raises
UPGRADE_CONFLICT, because the upgrading check precedes the
missing/ungranted/exclusive checks. -/
theorem upgrade_throws_despite_missing_request :
    LockManager.findRequest ([] : List LockManager.LockRequest) 2 = none ∧
    (LockManager.lockUpgrade
      (fun _ => ⟨LockManager.TransactionState.growing,
        LockManager.IsolationLevel.repeatableRead, [], []⟩) 2 5 ⟨[], 7⟩
      false).exc = some LockManager.AbortReason.upgradeConflict ∧
    ((LockManager.lockUpgrade
      (fun _ => ⟨LockManager.TransactionState.growing,
        LockManager.IsolationLevel.repeatableRead, [], []⟩) 2 5 ⟨[], 7⟩
      false).txns 2).state = LockManager.TransactionState.aborted := by
  refine ⟨rfl, by decide, by decide⟩

/-- Claim C6 (amended): provided the caller is not SHRINKING (the
shrinking pre-check throws first), a non-INVALID `upgrading` field makes
`LockUpgrade` abort the caller and raise UPGRADE_CONFLICT; and when no
upgrade is in progress, `LockUpgrade` returns false — with no state
change at all — whenever the caller's request is missing, not granted, or
already exclusive. -/
theorem upgrade_conflict_rules (reg : LockManager.Registry) (id : Int)
    (rid : Nat) (q : LockManager.LockRequestQueue) (w : Bool)
    (h1 : (reg id).state ≠ LockManager.TransactionState.shrinking) :
    ((q.upgrading ≠ LockManager.invalidTxnId →
      (LockManager.lockUpgrade reg id rid q w).exc
          = some LockManager.AbortReason.upgradeConflict ∧
      ((LockManager.lockUpgrade reg id rid q w).txns id).state
          = LockManager.TransactionState.aborted)) ∧
    (q.upgrading = LockManager.invalidTxnId →
      (LockManager.findRequest q.requestQueue id = none ∨
        (∃ r, LockManager.findRequest q.requestQueue id = some r ∧
          (r.lockMode = LockManager.LockMode.exclusive ∨
            r.granted = false))) →
      (LockManager.lockUpgrade reg id rid q w).exc = none ∧
      (LockManager.lockUpgrade reg id rid q w).ret = false ∧
      (LockManager.lockUpgrade reg id rid q w).txns = reg ∧
      (LockManager.lockUpgrade reg id rid q w).queue = q) := by
  have e1 : ((reg id).state == LockManager.TransactionState.shrinking)
      = false := beq_eq_false_iff_ne.mpr h1
  constructor
  · intro hup
    have e2 : (q.upgrading == LockManager.invalidTxnId) = false :=
      beq_eq_false_iff_ne.mpr hup
    unfold LockManager.lockUpgrade
    simp only [e1, e2, Bool.false_eq_true, if_false, Bool.not_false,
      if_true]
    refine ⟨?_, ?_⟩ <;> simp [LockManager.setTxnState_self]
  · intro hup hmiss
    have e2 : (q.upgrading == LockManager.invalidTxnId) = true :=
      beq_iff_eq.mpr hup
    unfold LockManager.lockUpgrade
    simp only [e1, e2, Bool.false_eq_true, if_false, Bool.not_true]
    rcases hf : LockManager.findRequest q.requestQueue id with _ | r
    · exact ⟨rfl, rfl, rfl, rfl⟩
    · rcases hmiss with hnone | ⟨r', hr', hcase⟩
      · rw [hf] at hnone
        exact absurd hnone (Option.some_ne_none r)
      · rw [hf] at hr'
        have hrr : r = r' := by injection hr'
        subst hrr
        have hcond : (r.lockMode == LockManager.LockMode.exclusive ||
            !r.granted) = true := by
          rcases hcase with h | h
          · rw [h]; simp
          · rw [h]; simp
        simp [hcond]

/-- Witness for C6 (amended): a GROWING transaction 2 hits `upgrading = 7`
and is aborted with UPGRADE_CONFLICT; over an idle queue its missing
request yields a plain false return. -/
theorem upgrade_conflict_rules_witness :
    ((LockManager.lockUpgrade
      (fun _ => ⟨LockManager.TransactionState.growing,
        LockManager.IsolationLevel.repeatableRead, [], []⟩) 2 5 ⟨[], 7⟩
      false).exc = some LockManager.AbortReason.upgradeConflict ∧
    ((LockManager.lockUpgrade
      (fun _ => ⟨LockManager.TransactionState.growing,
        LockManager.IsolationLevel.repeatableRead, [], []⟩) 2 5 ⟨[], 7⟩
      false).txns 2).state = LockManager.TransactionState.aborted) ∧
    (LockManager.lockUpgrade
      (fun _ => ⟨LockManager.TransactionState.growing,
        LockManager.IsolationLevel.repeatableRead, [], []⟩) 2 5 ⟨[], -1⟩
      false).ret = false :=
  ⟨(upgrade_conflict_rules
      (fun _ => ⟨LockManager.TransactionState.growing,
        LockManager.IsolationLevel.repeatableRead, [], []⟩) 2 5 ⟨[], 7⟩
      false (by decide)).1 (by decide),
   ((upgrade_conflict_rules
      (fun _ => ⟨LockManager.TransactionState.growing,
        LockManager.IsolationLevel.repeatableRead, [], []⟩) 2 5 ⟨[], -1⟩
      false (by decide)).2 rfl (Or.inl rfl)).2.1⟩

/-- Counterexample for C7: a failed `Unlock` of an absent request does not
leave the transaction untouched — a REPEATABLE_READ transaction in
GROWING whose queue holds no request of it gets `false` back, yet its
state has moved to SHRINKING and the RID has been erased from its shared
lock set. -/
theorem unlock_absent_still_transitions :
    (LockManager.unlock
      (fun _ => ⟨LockManager.TransactionState.growing,
        LockManager.IsolationLevel.repeatableRead, [5], []⟩) 2 5 ⟨[], -1⟩
      ).ret = false ∧
    ((LockManager.unlock
      (fun _ => ⟨LockManager.TransactionState.growing,
        LockManager.IsolationLevel.repeatableRead, [5], []⟩) 2 5 ⟨[], -1⟩
      ).txns 2).state = LockManager.TransactionState.shrinking ∧
    ((LockManager.unlock
      (fun _ => ⟨LockManager.TransactionState.growing,
        LockManager.IsolationLevel.repeatableRead, [5], []⟩) 2 5 ⟨[], -1⟩
      ).txns 2).sharedLockSet = [] := by
  refine ⟨by decide, by decide, by decide⟩

/-- Claim C7 (amended): `Unlock` returns false exactly when the
transaction has no request in the RID's queue; a present request is
erased and the condition variable notified; and on every call — failed or
not — the RID is erased from both lock sets and the GROWING → SHRINKING
transition under REPEATABLE_READ is performed. -/
theorem unlock_semantics (reg : LockManager.Registry) (id : Int)
    (rid : Nat) (q : LockManager.LockRequestQueue) :
    ((LockManager.unlock reg id rid q).ret = true ↔
      ∃ r, LockManager.findRequest q.requestQueue id = some r) ∧
    ((LockManager.unlock reg id rid q).notified
      = (LockManager.unlock reg id rid q).ret) ∧
    (LockManager.findRequest q.requestQueue id = none →
      (LockManager.unlock reg id rid q).queue = q) ∧
    ((∃ r, LockManager.findRequest q.requestQueue id = some r) →
      (LockManager.unlock reg id rid q).queue.requestQueue
        = LockManager.eraseRequest q.requestQueue id) ∧
    ((LockManager.unlock reg id rid q).txns id).state =
      (if ((reg id).isolationLevel == LockManager.IsolationLevel.repeatableRead
          && (reg id).state == LockManager.TransactionState.growing)
       then LockManager.TransactionState.shrinking else (reg id).state) ∧
    rid ∉ ((LockManager.unlock reg id rid q).txns id).sharedLockSet ∧
    rid ∉ ((LockManager.unlock reg id rid q).txns id).exclusiveLockSet := by
  have hstate : ∀ t : LockManager.Transaction,
      (LockManager.unlockNewTxn t rid).state =
        (if (t.isolationLevel == LockManager.IsolationLevel.repeatableRead
            && t.state == LockManager.TransactionState.growing)
         then LockManager.TransactionState.shrinking else t.state) := by
    intro t
    unfold LockManager.unlockNewTxn
    split <;> rfl
  have hsh : ∀ t : LockManager.Transaction,
      rid ∉ (LockManager.unlockNewTxn t rid).sharedLockSet := by
    intro t
    simp [LockManager.unlockNewTxn, LockManager.eraseSet]
  have hex : ∀ t : LockManager.Transaction,
      rid ∉ (LockManager.unlockNewTxn t rid).exclusiveLockSet := by
    intro t
    simp [LockManager.unlockNewTxn, LockManager.eraseSet]
  rcases hf : LockManager.findRequest q.requestQueue id with _ | r
  · have hout : LockManager.unlock reg id rid q =
        ⟨false, q, LockManager.updateTxn reg id
          (LockManager.unlockNewTxn (reg id) rid), false⟩ := by
      unfold LockManager.unlock
      rw [hf]
    rw [hout]
    refine ⟨by simp [hf], rfl, fun _ => rfl, ?_, ?_, ?_, ?_⟩
    · intro ⟨r, hr⟩
      exact absurd hr (by simp)
    · show ((LockManager.updateTxn reg id
        (LockManager.unlockNewTxn (reg id) rid)) id).state = _
      rw [LockManager.updateTxn_self, hstate]
    · show rid ∉ ((LockManager.updateTxn reg id
        (LockManager.unlockNewTxn (reg id) rid)) id).sharedLockSet
      rw [LockManager.updateTxn_self]
      exact hsh (reg id)
    · show rid ∉ ((LockManager.updateTxn reg id
        (LockManager.unlockNewTxn (reg id) rid)) id).exclusiveLockSet
      rw [LockManager.updateTxn_self]
      exact hex (reg id)
  · have hout : LockManager.unlock reg id rid q =
        ⟨true, { q with requestQueue :=
            LockManager.eraseRequest q.requestQueue id },
          LockManager.updateTxn reg id
            (LockManager.unlockNewTxn (reg id) rid), true⟩ := by
      unfold LockManager.unlock
      rw [hf]
    rw [hout]
    refine ⟨by simp [hf], rfl, ?_, fun _ => rfl, ?_, ?_, ?_⟩
    · intro hnone
      exact absurd hnone (by simp)
    · show ((LockManager.updateTxn reg id
        (LockManager.unlockNewTxn (reg id) rid)) id).state = _
      rw [LockManager.updateTxn_self, hstate]
    · show rid ∉ ((LockManager.updateTxn reg id
        (LockManager.unlockNewTxn (reg id) rid)) id).sharedLockSet
      rw [LockManager.updateTxn_self]
      exact hsh (reg id)
    · show rid ∉ ((LockManager.updateTxn reg id
        (LockManager.unlockNewTxn (reg id) rid)) id).exclusiveLockSet
      rw [LockManager.updateTxn_self]
      exact hex (reg id)

/-- Witness for C7 (amended): unlocking a present request of transaction
2 erases it from the queue. -/
theorem unlock_semantics_witness :
    (∃ r, LockManager.findRequest
      [(⟨2, LockManager.LockMode.shared, true⟩ :
        LockManager.LockRequest)] 2 = some r) ∧
    (LockManager.unlock
      (fun _ => ⟨LockManager.TransactionState.growing,
        LockManager.IsolationLevel.repeatableRead, [5], []⟩) 2 5
      ⟨[⟨2, LockManager.LockMode.shared, true⟩], -1⟩).queue.requestQueue
      = LockManager.eraseRequest
          [⟨2, LockManager.LockMode.shared, true⟩] 2 :=
  ⟨⟨⟨2, LockManager.LockMode.shared, true⟩, by decide⟩,
   (unlock_semantics
      (fun _ => ⟨LockManager.TransactionState.growing,
        LockManager.IsolationLevel.repeatableRead, [5], []⟩) 2 5
      ⟨[⟨2, LockManager.LockMode.shared, true⟩], -1⟩).2.2.2.1
     ⟨⟨2, LockManager.LockMode.shared, true⟩, by decide⟩⟩

end Bustub
